import Mathlib

/-! # Jovi_MIDI: the annotated numeric widget (`src/web/util_field.js`)

A shallow embedding of the widget code and the properties proved about it.

Numbers: a JavaScript number is modelled as an exact rational (`JSVal.num`), as
`NaN` (`JSVal.nan`) or as the value `undefined` (`JSVal.undefined`).  Rounding
of IEEE doubles is not modelled: `0.1` is the rational `1/10`.  Configuration
values read from `options` are finite numbers, or read `undefined`/`null`
(`none`); the keys that are present with such a value are kept apart from the
absent ones.
-/

namespace JoviMidi

/-! ## JavaScript values -/

/-- A JavaScript value as far as the widget code uses it: `undefined`, `NaN`
or a finite number. -/
inductive JSVal where
  | undefined
  | nan
  | num (q : ℚ)
  deriving DecidableEq, Repr

namespace JSVal

/-- Reading an optional configuration number: an absent key reads `undefined`. -/
def ofOption : Option ℚ → JSVal
  | none => undefined
  | some q => num q

/-- JavaScript `a + b` on numbers; `undefined` converts to `NaN`. -/
def add : JSVal → JSVal → JSVal
  | num a, num b => num (a + b)
  | _, _ => nan

/-- JavaScript `a < b`; any comparison with `NaN` or `undefined` is false. -/
def lt : JSVal → JSVal → Bool
  | num a, num b => decide (a < b)
  | _, _ => false

/-- JavaScript `a > b`. -/
def gt (a b : JSVal) : Bool := lt b a

/-- JavaScript loose inequality `a != b`: `NaN` differs from everything,
itself included; `undefined` equals only `undefined`. -/
def looseNe : JSVal → JSVal → Bool
  | num a, num b => decide (a ≠ b)
  | undefined, undefined => false
  | _, _ => true

/-- JavaScript loose equality `a == b`. -/
def looseEq (a b : JSVal) : Bool := !(looseNe a b)

end JSVal

/-- JavaScript `a || b` where `a` is an optional number and `b` a number. -/
def orElseNum (a : Option ℚ) (b : ℚ) : ℚ :=
  match a with
  | some q => if q ≠ 0 then q else b
  | none => b

/-- JavaScript `Math.round` on a finite number: the integer `floor (x + 1/2)`,
ties going towards plus infinity. -/
def mathRound (x : ℚ) : ℤ := ⌊x + 1 / 2⌋

/-! ## Data model -/

/-- The recognised keys of `widget.options`. -/
inductive OptKey where
  | min
  | max
  | step
  | precision
  | unit
  | mod
  | reset
  | disable
  | property
  | annotation
  deriving DecidableEq, Repr

/-- The two values JavaScript treats as missing under `== undefined` and
`!= null`. -/
inductive Nullish where
  | undefined
  | null
  deriving DecidableEq, Repr

/-- A value held under a key of an options object. -/
inductive OptVal where
  | nullish (n : Nullish)
  | num (q : ℚ)
  | nat (n : ℕ)
  | str (s : String)
  | table (t : List (ℚ × String))
  deriving DecidableEq, Repr

/-- The options object `widget.options`.  A field holds the value the code
reads under the key; `none` means the key reads `undefined` or `null`, and the
key is then either absent from the object or present with such a value:
`nullish` lists the keys that are present with the value `undefined` or
`null`, with the value they hold. -/
structure Options where
  min : Option ℚ := none
  max : Option ℚ := none
  step : Option ℚ := none
  precision : Option ℕ := none
  unit : Option String := none
  mod : Option ℚ := none
  reset : Option ℚ := none
  disable : Option ℚ := none
  property : Option String := none
  annotation : Option (List (ℚ × String)) := none
  nullish : List (OptKey × Nullish) := []
  deriving DecidableEq, Repr

/-- The entry of a key in a list of keys present with `undefined` or `null`. -/
def nullishAt : List (OptKey × Nullish) → OptKey → Option Nullish
  | [], _ => none
  | (k1, n) :: rest, k => if k1 = k then some n else nullishAt rest k

/-- The proper (non-nullish) value an options object holds under a key. -/
def Options.value? (o : Options) : OptKey → Option OptVal
  | OptKey.min => o.min.map OptVal.num
  | OptKey.max => o.max.map OptVal.num
  | OptKey.step => o.step.map OptVal.num
  | OptKey.precision => o.precision.map OptVal.nat
  | OptKey.unit => o.unit.map OptVal.str
  | OptKey.mod => o.mod.map OptVal.num
  | OptKey.reset => o.reset.map OptVal.num
  | OptKey.disable => o.disable.map OptVal.num
  | OptKey.property => o.property.map OptVal.str
  | OptKey.annotation => o.annotation.map OptVal.table

/-- The own property of an options object under a key: `none` when the key is
absent, and the value held, which may be `undefined` or `null`, when the key
is present. -/
def Options.lookup (o : Options) (k : OptKey) : Option OptVal :=
  match o.value? k with
  | some v => some v
  | none => (nullishAt o.nullish k).map OptVal.nullish

/-- The key is an own property of the options object. -/
def Options.has (o : Options) (k : OptKey) : Bool := (o.lookup k).isSome

/-- A value of `widget.callback`.  `absent` is `undefined`; `host id` is a
function supplied by the host editor (its body is not part of this
repository); `wrapped orig` is the closure installed by `makeAnnotated`, which
captured `callback_orig = orig`. -/
inductive Callback where
  | absent
  | host (id : ℕ)
  | wrapped (orig : Callback)
  deriving DecidableEq, Repr

/-- The hooks `makeAnnotated` installs on a widget. -/
inductive Hook where
  | drawAnnotated
  | mouseAnnotated
  | computeSize20
  deriving DecidableEq, Repr

/-- The input descriptor `inputData = [typeName, descriptorOptions]`. -/
structure InputData where
  typeName : String := ""
  options : Option Options := none
  deriving DecidableEq, Repr

/-- The widget object.  `options` may be `undefined` on a stub (the code reads
it through `?.` in places); `width` is the optional explicit pixel width;
`annotation` is the optional per-instance annotation function, a host
function known by its identifier. -/
structure Widget where
  value : JSVal := JSVal.undefined
  options : Option Options := none
  width : Option ℚ := none
  name : String := ""
  label : Option String := none
  disabled : Bool := false
  callback : Callback := Callback.absent
  type : String := ""
  draw : Option Hook := none
  mouse : Option Hook := none
  computeSize : Option Hook := none
  config : Option InputData := none
  annotation : Option ℕ := none
  deriving DecidableEq, Repr

/-- The keys a plain object inherits from `Object.prototype`; the operator
`in` sees them on every object literal. -/
def objectPrototypeKeys : List String :=
  ["constructor", "__defineGetter__", "__defineSetter__", "hasOwnProperty",
   "__lookupGetter__", "__lookupSetter__", "isPrototypeOf", "propertyIsEnumerable",
   "toString", "valueOf", "__proto__", "toLocaleString"]

/-- The owning node: its width `size[0]`, the own keys and values of its
property store `node.properties`, and the keys the store inherits through its
prototype chain (those of `Object.prototype` for a plain object). -/
structure Node where
  size0 : ℚ := 0
  properties : List (String × JSVal) := []
  inherited : List String := objectPrototypeKeys
  deriving DecidableEq, Repr

/-- The value of `widget.options?.reset`. -/
def optReset (w : Widget) : Option ℚ := w.options.bind (fun o => o.reset)

/-- The value of `widget.options?.disable`. -/
def optDisable (w : Widget) : Option ℚ := w.options.bind (fun o => o.disable)

/-- The value of `widget.options?.mod`. -/
def optMod (w : Widget) : Option ℚ := w.options.bind (fun o => o.mod)

/-! ## `button_action` (lines 6-32) -/

/-- The function `button_action(widget)`: the button state as the string the
code returns. -/
def button_action (widget : Widget) : String :=
  if (optReset widget).isNone && (optDisable widget).isNone then
    "None"
  else if (optReset widget).isSome
      && JSVal.looseNe widget.value (JSVal.ofOption (optReset widget)) then
    "Reset"
  else if (optDisable widget).isSome
      && JSVal.looseNe widget.value (JSVal.ofOption (optDisable widget)) then
    "Disable"
  else if (optReset widget).isSome then
    "No Reset"
  else
    "No Disable"

/-- The button-state decision table of the specification, row by row: each row
is a condition on `(value, reset, disable)` and the state it selects. -/
def buttonTable (value : JSVal) (reset disable : Option ℚ) : List (Bool × String) :=
  [ (reset.isNone && disable.isNone, "None"),
    (match reset with
      | some r => decide (value ≠ JSVal.num r)
      | none => false, "Reset"),
    (match disable with
      | some d => decide (value ≠ JSVal.num d)
      | none => false, "Disable"),
    (reset.isSome, "No Reset") ]

/-- Evaluating a decision table in order: the state of the first row whose
condition holds, and `otherwise` when none does. -/
def firstMatch : List (Bool × String) → String → String
  | [], otherwise => otherwise
  | (c, s) :: rest, otherwise => if c then s else firstMatch rest otherwise

/-! ## Callbacks and the commit pipeline (lines 34-42, 222-234) -/

/-- A JavaScript exception. -/
inductive JSError where
  | typeError (msg : String)
  | rangeError (msg : String)
  deriving DecidableEq, Repr

/-- The argument list of a callback invocation: the first argument `v` and
the names of the host objects passed after it. -/
structure Args where
  v : JSVal
  rest : List String := []
  deriving DecidableEq, Repr

/-- One recorded invocation of a host-supplied callback. -/
structure HostCall where
  id : ℕ
  args : Args
  deriving DecidableEq, Repr

/-- The state a callback can touch: the widget (`this`), the owning node and
the log of host-callback invocations made so far. -/
structure World where
  widget : Widget
  node : Node
  calls : List HostCall := []
  deriving DecidableEq, Repr

/-- The quantization `Math.round((v - sh) / s) * s + sh` with
`s = options.step / 10` and `sh = options.mod`.  When `step` is absent `s` is
`NaN`; when `s` is `0` the quotient is infinite or `NaN` and its product with
`s = 0` is `NaN`; a `v` that is not a finite number gives `NaN` as well. -/
def quantize (v : JSVal) (step : Option ℚ) (sh : ℚ) : JSVal :=
  match v, step with
  | JSVal.num q, some st =>
    if st / 10 = 0 then JSVal.nan
    else JSVal.num ((mathRound ((q - sh) / (st / 10)) : ℚ) * (st / 10) + sh)
  | _, _ => JSVal.nan

/-- Calling `cb.apply(this, arguments)` with `this = σ.widget`.  A host
callback is recorded in the log (its own effects are outside the repository);
the closure of `makeAnnotated` runs the body at lines 222-234; calling
`undefined` raises a `TypeError`. -/
def invokeCallback : Callback → Args → World → Except JSError World
  | Callback.absent, _, _ =>
    Except.error (JSError.typeError "callback_orig is undefined")
  | Callback.host id, args, σ =>
    Except.ok { σ with calls := σ.calls ++ [{ id := id, args := args }] }
  | Callback.wrapped callback_orig, args, σ =>
    if JSVal.looseEq args.v (JSVal.num 0) then
      Except.ok σ
    else
      match optMod σ.widget with
      | none => invokeCallback callback_orig args σ
      | some sh =>
        let step := σ.widget.options.bind (fun o => o.step)
        Except.ok { σ with widget := { σ.widget with value := quantize args.v step sh } }

/-- Modelled from the spec: the host node's `setProperty(key, value)`, which
writes `value` into the node's property store under `key`. -/
def Node.setProperty (node : Node) (key : String) (value : JSVal) : Node :=
  { node with
    properties :=
      if node.properties.any (fun kv => kv.1 == key) then
        node.properties.map (fun kv => if kv.1 == key then (key, value) else kv)
      else node.properties ++ [(key, value)] }

/-- The test `widget.options?.property && widget.options.property in
node.properties`: the property name is a non-empty string and `in` finds it
in the store, as an own key or as an inherited one. -/
def propertyNamed (widget : Widget) (node : Node) : Option String :=
  match widget.options.bind (fun o => o.property) with
  | some p =>
    if p ≠ "" && (node.properties.any (fun kv => kv.1 == p) || node.inherited.contains p) then
      some p
    else none
  | none => none

/-- The function `inner_value_change(widget, value, node, pos)`, with the log
of host-callback invocations threaded through. -/
def inner_value_change (widget : Widget) (value : JSVal) (node : Node) (_pos : ℚ × ℚ)
    (calls : List HostCall) : Except JSError World :=
  let widget1 : Widget := { widget with value := value }
  let node1 : Node :=
    match propertyNamed widget1 node with
    | some p => node.setProperty p value
    | none => node
  match widget1.callback with
  | Callback.absent => Except.ok { widget := widget1, node := node1, calls := calls }
  | cb =>
    invokeCallback cb { v := widget1.value, rest := ["app.canvas", "node", "event"] }
      { widget := widget1, node := node1, calls := calls }

/-! ## `makeAnnotated` (lines 213-239) -/

/-- One `Object.assign(target, source)` step on option objects: every key
present in `source`, also one present with the value `undefined` or `null`,
overwrites the key of `target`. -/
def Options.assign (target source : Options) : Options :=
  { min := if source.has OptKey.min then source.min else target.min
    max := if source.has OptKey.max then source.max else target.max
    step := if source.has OptKey.step then source.step else target.step
    precision := if source.has OptKey.precision then source.precision else target.precision
    unit := if source.has OptKey.unit then source.unit else target.unit
    mod := if source.has OptKey.mod then source.mod else target.mod
    reset := if source.has OptKey.reset then source.reset else target.reset
    disable := if source.has OptKey.disable then source.disable else target.disable
    property := if source.has OptKey.property then source.property else target.property
    annotation :=
      if source.has OptKey.annotation then source.annotation else target.annotation
    nullish := source.nullish ++ target.nullish.filter (fun e => !source.has e.1) }

/-- An `Object.assign` step whose source may be `undefined` (then skipped). -/
def Options.assignOpt (target : Options) : Option Options → Options
  | none => target
  | some source => target.assign source

/-- The function `makeAnnotated(widget, inputData)`. -/
def makeAnnotated (widget : Widget) (inputData : InputData) : Widget :=
  let callback_orig := widget.callback
  { widget with
    type := "BOOLEAN"
    draw := some Hook.drawAnnotated
    mouse := some Hook.mouseAnnotated
    computeSize := some Hook.computeSize20
    callback := Callback.wrapped callback_orig
    config := some inputData
    options := some ((({} : Options).assignOpt inputData.options).assignOpt widget.options) }

/-- Calling the callback of a widget as the code does, `widget.callback(...)`,
on a widget whose callback is a function. -/
def callWidgetCallback (widget : Widget) (args : Args) (node : Node)
    (calls : List HostCall) : Except JSError World :=
  invokeCallback widget.callback args { widget := widget, node := node, calls := calls }

/-! ## `mouseAnnotated` (lines 146-211) -/

/-- A pointer event: its `type`, and the optional `deltaX` and `click_time`. -/
structure Event where
  type : String
  deltaX : Option ℚ := none
  click_time : Option ℚ := none
  deriving DecidableEq, Repr

/-- A timer set by `setTimeout`: its delay in milliseconds and the position
captured by the deferred `inner_value_change` call. -/
structure Timer where
  delay : ℕ
  pos : ℚ × ℚ
  deriving DecidableEq, Repr

/-- What one call of `mouseAnnotated` leaves behind: the widget, the prompt
dialogs opened (each seeded with a value), the timers set, and the return
value. -/
structure MouseResult where
  widget : Widget
  prompts : List JSVal := []
  timers : List Timer := []
  ret : Bool := true
  deriving DecidableEq, Repr

/-- The zone delta of line 150: `-1` in the left zone, `1` in the right zone,
`0` in between. -/
def zoneDelta (x widget_width : ℚ) : ℚ :=
  if x < 40 then -1 else if x > widget_width - 48 then 1 else 0

/-- The two clamping statements `if (min != null && value < min) value = min`
and `if (max != null && value > max) value = max`, in this order. -/
def clampStatements (o : Options) (value : JSVal) : JSVal :=
  let v1 := if o.min.isSome && JSVal.lt value (JSVal.ofOption o.min) then JSVal.ofOption o.min else value
  if o.max.isSome && JSVal.gt v1 (JSVal.ofOption o.max) then JSVal.ofOption o.max else v1

/-- The function `mouseAnnotated(event, [x, y], node)` with `this = self`. -/
def mouseAnnotated (event : Event) (pos : ℚ × ℚ) (node : Node) (self : Widget) :
    Except JSError MouseResult :=
  let x := pos.1
  let button := button_action self
  let widget_width := orElseNum self.width node.size0
  let old_value := self.value
  let delta := zoneDelta x widget_width
  let margin : ℚ := 15
  let allow_scroll : Bool :=
    if delta ≠ 0 then
      if x > -3 ∧ x < widget_width + 3 then false else true
    else true
  let body : Except JSError (Widget × List JSVal) :=
    if allow_scroll && event.type == "pointermove" then
      match self.options with
      | none => Except.error (JSError.typeError "this.options is undefined")
      | some o =>
        let v1 :=
          match event.deltaX with
          | some dx =>
            if dx ≠ 0 then self.value.add (JSVal.num (dx * (1 / 10) * orElseNum o.step 1))
            else self.value
          | none => self.value
        Except.ok ({ self with value := clampStatements o v1 }, [])
    else if event.type == "pointerdown" then
      if x > widget_width - margin - 34 ∧ x < widget_width - margin - 18 then
        if button == "Reset" then
          match self.options with
          | none => Except.error (JSError.typeError "this.options is undefined")
          | some o => Except.ok ({ self with value := JSVal.ofOption o.reset }, [])
        else if button == "Disable" then
          match self.options with
          | none => Except.error (JSError.typeError "this.options is undefined")
          | some o => Except.ok ({ self with value := JSVal.ofOption o.disable }, [])
        else Except.ok (self, [])
      else
        match self.options with
        | none => Except.error (JSError.typeError "this.options is undefined")
        | some o =>
          let v1 := self.value.add (JSVal.num (delta * (1 / 10) * orElseNum o.step 1))
          Except.ok ({ self with value := clampStatements o v1 }, [])
    else if event.type == "pointerup" then
      if (match event.click_time with
          | some t => decide (t < 200)
          | none => false) && decide (delta = 0) then
        Except.ok (self, [self.value])
      else Except.ok (self, [])
    else Except.ok (self, [])
  match body with
  | Except.error e => Except.error e
  | Except.ok (self1, prompts) =>
    Except.ok
      { widget := self1
        prompts := prompts
        timers := if JSVal.looseNe old_value self1.value then [{ delay := 20, pos := pos }] else []
        ret := true }

/-- The confirmation callback handed to `app.canvas.prompt` (lines 193-197):
`n` is the number `Number(v)` parsed from the entered text. -/
def promptConfirm (self : Widget) (n : JSVal) (node : Node) (pos : ℚ × ℚ)
    (calls : List HostCall) : Except JSError World :=
  inner_value_change { self with value := n } n node pos calls

/-- One turn of the host's event loop as far as the widget sees it: a pointer
event dispatched to `mouseAnnotated`, or the oldest pending timer coming due. -/
inductive Step where
  | pointer (ev : Event) (pos : ℚ × ℚ)
  | timer
  deriving DecidableEq, Repr

/-- The widget, its node and the call log, together with the timers set and
not yet fired, oldest first (all timers have the same delay, so they fire in
the order they were set). -/
structure Session where
  world : World
  pending : List Timer := []
  deriving DecidableEq, Repr

/-- The deferred callback of lines 205-207 coming due:
`inner_value_change(this, this.value, node, [x, y])` on the widget as it is
then.  An exception raised by the widget's callback (line 40) ends the timer
callback only, after lines 35-38 have run. -/
def fireTimer (σ : World) (t : Timer) : World :=
  match inner_value_change σ.widget σ.widget.value σ.node t.pos σ.calls with
  | Except.ok τ => τ
  | Except.error _ =>
    { σ with
      node :=
        match propertyNamed σ.widget σ.node with
        | some p => σ.node.setProperty p σ.widget.value
        | none => σ.node }

/-- Running a sequence of turns: a pointer event goes through
`mouseAnnotated` and the timer it sets joins the pending ones; a timer turn
fires the oldest pending timer, if there is one. -/
def runSteps : List Step → Session → Except JSError Session
  | [], s => Except.ok s
  | Step.pointer ev pos :: rest, s =>
    match mouseAnnotated ev pos s.world.node s.world.widget with
    | Except.error e => Except.error e
    | Except.ok r =>
      runSteps rest
        { world := { s.world with widget := r.widget }, pending := s.pending ++ r.timers }
  | Step.timer :: rest, s =>
    match s.pending with
    | [] => runSteps rest s
    | t :: ts => runSteps rest { world := fireTimer s.world t, pending := ts }

/-! ## `drawAnnotated` (lines 44-144) -/

/-- The colour constants the renderer reads from the host's `LiteGraph`
table. -/
structure Theme where
  WIDGET_OUTLINE_COLOR : String
  WIDGET_BGCOLOR : String
  WIDGET_TEXT_COLOR : String
  WIDGET_SECONDARY_TEXT_COLOR : String

/-- What the renderer reads from its host: the theme, the zoom scale
`app.canvas.ds.scale`, the text measurement `ctx.measureText(text).width`
(depending on the current font), the number formatting
`Number(value).toFixed(digits)`, and the per-instance annotation functions by
identifier. -/
structure DrawEnv where
  theme : Theme
  scale : ℚ
  measureText : String → String → ℚ
  toFixed : JSVal → ℕ → String
  annotate : ℕ → JSVal → ℚ → String

/-- The drawing state of a 2D canvas context that `save()` and `restore()`
keep: text alignment, fill and stroke style, font. -/
structure CtxState where
  textAlign : String
  fillStyle : String
  strokeStyle : String
  font : String
  deriving DecidableEq, Repr

/-- A drawing call made on the surface; `fillText` is recorded with the
drawing state it was made in. -/
inductive DrawOp where
  | beginPath
  | roundRect (x y w h r : ℚ)
  | rect (x y w h : ℚ)
  | fill
  | stroke
  | moveTo (x y : ℚ)
  | lineTo (x y : ℚ)
  | fillText (text : String) (x y : ℚ) (state : CtxState)
  deriving DecidableEq, Repr

/-- The drawing surface: the current state, the stack of saved states and the
drawing calls made so far. -/
structure Ctx where
  state : CtxState
  stack : List CtxState := []
  ops : List DrawOp := []
  deriving DecidableEq, Repr

namespace Ctx

/-- The assignment `ctx.textAlign = a`. -/
def setTextAlign (ctx : Ctx) (a : String) : Ctx :=
  { ctx with state := { ctx.state with textAlign := a } }

/-- The assignment `ctx.fillStyle = c`. -/
def setFillStyle (ctx : Ctx) (c : String) : Ctx :=
  { ctx with state := { ctx.state with fillStyle := c } }

/-- The assignment `ctx.strokeStyle = c`. -/
def setStrokeStyle (ctx : Ctx) (c : String) : Ctx :=
  { ctx with state := { ctx.state with strokeStyle := c } }

/-- The assignment `ctx.font = f`. -/
def setFont (ctx : Ctx) (f : String) : Ctx :=
  { ctx with state := { ctx.state with font := f } }

/-- The call `ctx.save()`: the current state is pushed on the stack. -/
def save (ctx : Ctx) : Ctx := { ctx with stack := ctx.state :: ctx.stack }

/-- The call `ctx.restore()`: the last saved state is popped and becomes
current; with nothing saved the call does nothing. -/
def restore (ctx : Ctx) : Ctx :=
  match ctx.stack with
  | [] => ctx
  | s :: rest => { ctx with state := s, stack := rest }

/-- A path or paint call, appended to the log. -/
def draw (ctx : Ctx) (op : DrawOp) : Ctx := { ctx with ops := ctx.ops ++ [op] }

/-- The call `ctx.fillText(text, x, y)`. -/
def fillText (ctx : Ctx) (text : String) (x y : ℚ) : Ctx :=
  ctx.draw (DrawOp.fillText text x y ctx.state)

end Ctx

/-- The expression `this.label || this.name`. -/
def labelOrName (self : Widget) : String :=
  match self.label with
  | some l => if l ≠ "" then l else self.name
  | none => self.name

/-- The lookup `this.options.annotation[this.value]` guarded by
`this.value in this.options.annotation`, on a table keyed by numbers. -/
def lookupAnnotation (table : List (ℚ × String)) : JSVal → Option String
  | JSVal.num q => (table.find? (fun kv => kv.1 == q)).map (fun kv => kv.2)
  | _ => none

/-- The annotation selection of lines 119-127: the per-instance function when
there is one, else the table entry for the value, else the empty string. -/
def selectAnnotation (env : DrawEnv) (self : Widget) (o : Options) (free_width : ℚ) : String :=
  match self.annotation with
  | some f => env.annotate f self.value free_width
  | none =>
    match o.annotation with
    | some table =>
      match lookupAnnotation table self.value with
      | some s => s
      | none => ""
    | none => ""

/-- The button glyph block of lines 63-80. -/
def drawButton (env : DrawEnv) (ctx : Ctx) (widget_width y H : ℚ) (self : Widget)
    (monospace_font : String) : Ctx :=
  let margin : ℚ := 15
  let button := button_action self
  if button != "None" then
    let ctx := ctx.save
    let ctx := ctx.setFont monospace_font
    let ctx :=
      if button.startsWith "No " then ctx.setFillStyle env.theme.WIDGET_OUTLINE_COLOR
      else ctx.setFillStyle env.theme.WIDGET_TEXT_COLOR
    let ctx :=
      if button.endsWith "Reset" then
        ctx.fillText "\u21ba" (widget_width - margin - 33) (y + H * (7 / 10))
      else ctx.fillText "\u2298" (widget_width - margin - 33) (y + H * (7 / 10))
    ctx.restore
  else ctx

/-- The two chevrons of lines 82-93. -/
def drawChevrons (ctx : Ctx) (widget_width y H : ℚ) (self : Widget) : Ctx :=
  let margin : ℚ := 15
  if !self.disabled then
    let ctx := ctx.draw DrawOp.beginPath
    let ctx := ctx.draw (DrawOp.moveTo (margin + 16) (y + 5))
    let ctx := ctx.draw (DrawOp.lineTo (margin + 6) (y + H * (1 / 2)))
    let ctx := ctx.draw (DrawOp.lineTo (margin + 16) (y + H - 5))
    let ctx := ctx.draw DrawOp.fill
    let ctx := ctx.draw DrawOp.beginPath
    let ctx := ctx.draw (DrawOp.moveTo (widget_width - margin - 16) (y + 5))
    let ctx := ctx.draw (DrawOp.lineTo (widget_width - margin - 6) (y + H * (1 / 2)))
    let ctx := ctx.draw (DrawOp.lineTo (widget_width - margin - 16) (y + H - 5))
    ctx.draw DrawOp.fill
  else ctx

/-- The value, unit and annotation block of lines 95-142, on a widget whose
`options` is the object `o`.  The digits are `options.precision` when it is
not `undefined` (strict test of line 100), `null` counting as `0` digits, and
`3` otherwise. -/
def drawValue (env : DrawEnv) (ctx : Ctx) (widget_width y H : ℚ) (self : Widget) (o : Options)
    (monospace_font : String) : Except JSError Ctx :=
  let margin : ℚ := 15
  let ctx := ctx.setFillStyle env.theme.WIDGET_SECONDARY_TEXT_COLOR
  let ctx := ctx.fillText (labelOrName self) (margin * 2 + 5) (y + H * (7 / 10))
  let ctx := ctx.setFillStyle env.theme.WIDGET_TEXT_COLOR
  let ctx := ctx.setTextAlign "right"
  let digits : ℕ :=
    match o.precision with
    | some p => p
    | none => if nullishAt o.nullish OptKey.precision = some Nullish.null then 0 else 3
  if digits > 100 then
    Except.error (JSError.rangeError "toFixed() digits argument must be between 0 and 100")
  else
    let text := env.toFixed self.value digits
    let value_offset : ℚ := margin * 2 + 20
    let unitDrawn : Ctx × ℚ :=
      match o.unit with
      | some u =>
        if u ≠ "" then
          let c := ctx.save
          let c := c.setFont monospace_font
          let c := c.setFillStyle env.theme.WIDGET_OUTLINE_COLOR
          let c := c.fillText u (widget_width - value_offset) (y + H * (7 / 10))
          let off := value_offset + env.measureText c.state.font u
          (c.restore, off)
        else (ctx, value_offset)
      | none => (ctx, value_offset)
    let ctx := unitDrawn.1
    let value_offset := unitDrawn.2
    let ctx := ctx.fillText text (widget_width - value_offset) (y + H * (7 / 10))
    let value_width := env.measureText ctx.state.font text
    let name_width := env.measureText ctx.state.font (labelOrName self)
    let free_width := widget_width - (value_width + name_width + value_offset + 40)
    let annotation := selectAnnotation env self o free_width
    if annotation ≠ "" then
      let ctx := ctx.setFillStyle env.theme.WIDGET_OUTLINE_COLOR
      let annotation_width := env.measureText ctx.state.font annotation
      let annotation := if free_width < annotation_width then "\u2026" else annotation
      Except.ok (ctx.fillText annotation (widget_width - 5 - value_width - value_offset)
        (y + H * (7 / 10)))
    else Except.ok ctx

/-- The first word of the font and `monospace`:
`ctx.font.split(' ')[0] + ' monospace'`. -/
def monospaceFont (font : String) : String :=
  (font.splitOn " ").headD "" ++ " monospace"

/-- The function `drawAnnotated(ctx, node, widget_width, y, H)` with
`this = self`, in the host environment `env`. -/
def drawAnnotated (env : DrawEnv) (ctx : Ctx) (_node : Node) (widget_width y H : ℚ)
    (self : Widget) : Except JSError Ctx :=
  let show_text : Bool := decide (env.scale > 1 / 2)
  let margin : ℚ := 15
  let ctx := ctx.setTextAlign "left"
  let ctx := ctx.setStrokeStyle env.theme.WIDGET_OUTLINE_COLOR
  let ctx := ctx.setFillStyle env.theme.WIDGET_BGCOLOR
  let ctx := ctx.draw DrawOp.beginPath
  let ctx :=
    if show_text then ctx.draw (DrawOp.roundRect margin y (widget_width - margin * 2) H (H * (1 / 2)))
    else ctx.draw (DrawOp.rect margin y (widget_width - margin * 2) H)
  let ctx := ctx.draw DrawOp.fill
  if show_text then
    let monospace_font := monospaceFont ctx.state.font
    let ctx := if !self.disabled then ctx.draw DrawOp.stroke else ctx
    let ctx := drawButton env ctx widget_width y H self monospace_font
    let ctx := ctx.setFillStyle env.theme.WIDGET_TEXT_COLOR
    let ctx := drawChevrons ctx widget_width y H self
    match self.options with
    | none => Except.error (JSError.typeError "this.options is undefined")
    | some o => drawValue env ctx widget_width y H self o monospace_font
  else Except.ok ctx

/-! ## Specification-side notions -/

/-- The interval clamp the specification speaks of: `q` brought up to the lower
bound when one is configured, then down to the upper bound when one is
configured. -/
def clampTo (lo hi : Option ℚ) (q : ℚ) : ℚ :=
  let a := match lo with
    | some l => max q l
    | none => q
  match hi with
  | some h => min a h
  | none => a

/-- The value is a finite number within `[lo, hi]`. -/
def inRange (w : Widget) (lo hi : ℚ) : Prop :=
  match w.value with
  | JSVal.num v => lo ≤ v ∧ v ≤ hi
  | _ => False

instance (w : Widget) (lo hi : ℚ) : Decidable (inRange w lo hi) := by
  unfold inRange
  split <;> infer_instance

/-- The width the handler works with, `this.width || node.size[0]`. -/
def widgetWidth (w : Widget) (node : Node) : ℚ := orElseNum w.width node.size0

/-- The button hit-box as the specification states it:
`width - 49 < x < width - 33`. -/
def inHitBox (x width : ℚ) : Prop := width - 49 < x ∧ x < width - 33

instance (x width : ℚ) : Decidable (inHitBox x width) := by
  unfold inHitBox
  infer_instance

/-- The pointer is within the widget bounds, `-3 < x < width + 3`. -/
def inBounds (x width : ℚ) : Prop := -3 < x ∧ x < width + 3

instance (x width : ℚ) : Decidable (inBounds x width) := by
  unfold inBounds
  infer_instance

/-- The value `value + k * 0.1 * step` clamped to `[min, max]`, for a finite
value; `NaN` when the value is not a finite number.  The step is
`options.step || 1`. -/
def steppedValue (o : Options) (value : JSVal) (k : ℚ) : JSVal :=
  match value with
  | JSVal.num q => JSVal.num (clampTo o.min o.max (q + k * (1 / 10) * orElseNum o.step 1))
  | _ => JSVal.nan

/-- The pointerdown rule as the specification states it: a snap to the
sentinel in the hit-box when the button state is `Reset` or `Disable`, and the
clamped one-shot nudge `value + delta * 0.1 * step` in every other case. -/
def pointerdownClaim (w : Widget) (o : Options) (x width : ℚ) : JSVal :=
  if inHitBox x width ∧ button_action w = "Reset" then JSVal.ofOption o.reset
  else if inHitBox x width ∧ button_action w = "Disable" then JSVal.ofOption o.disable
  else steppedValue o w.value (zoneDelta x width)

/-- The pointermove rule as the specification states it: with a non-zero
`deltaX` and the pointer within the widget bounds, the clamped drag
`value + deltaX * 0.1 * step`. -/
def pointermoveClaim (w : Widget) (o : Options) (x width dx : ℚ) : Option JSVal :=
  if dx ≠ 0 ∧ inBounds x width then some (steppedValue o w.value dx) else none

/-- An event of a drag/nudge sequence: a pointermove, or a pointerdown that
lands outside the button hit-box. -/
def dragOrNudge (w : Widget) (node : Node) (e : Event × (ℚ × ℚ)) : Prop :=
  e.1.type = "pointermove"
    ∨ (e.1.type = "pointerdown" ∧ ¬ inHitBox e.2.1 (widgetWidth w node))

instance (w : Widget) (node : Node) (e : Event × (ℚ × ℚ)) : Decidable (dragOrNudge w node e) := by
  unfold dragOrNudge
  infer_instance

/-- A callback that can be called through to the end: a host function, or a
closure of `makeAnnotated` whose captured original is itself callable. -/
def Callback.callable : Callback → Bool
  | Callback.absent => false
  | Callback.host _ => true
  | Callback.wrapped orig => orig.callable

/-- The property name `options.property`, when it is set (defined and not the
empty string). -/
def propertySet (widget : Widget) : Option String :=
  match widget.options.bind (fun o => o.property) with
  | some p => if p ≠ "" then some p else none
  | none => none

/-- The name `p` is a key of the node's property store. -/
def Node.hasProperty (node : Node) (p : String) : Prop := ∃ x, (p, x) ∈ node.properties

/-- The name `p` is found by `p in node.properties`: it is a key of the store
or a key the store inherits. -/
def Node.inKeys (node : Node) (p : String) : Prop := node.hasProperty p ∨ p ∈ node.inherited

/-- The tap condition of the specification: `click_time < 200` and the pointer
in the middle zone. -/
def isTap (ev : Event) (x width : ℚ) : Prop :=
  (match ev.click_time with
    | some t => t < 200
    | none => False) ∧ zoneDelta x width = 0

instance (ev : Event) (x width : ℚ) : Decidable (isTap ev x width) := by
  unfold isTap
  cases ev.click_time <;> infer_instance

/-- The merge precedence of the specification for one key: the stub's value
when the stub has the key, else the descriptor's value, else absent. -/
def precedence {α : Type} (stub descriptor : Option α) : Option α :=
  match stub with
  | some x => some x
  | none => descriptor

/-! ## Helper lemmas -/

theorem looseNe_num_iff (v : JSVal) (r : ℚ) :
    JSVal.looseNe v (JSVal.num r) = true ↔ v ≠ JSVal.num r := by
  cases v <;> simp [JSVal.looseNe]

theorem looseNe_self_num (r : ℚ) : JSVal.looseNe (JSVal.num r) (JSVal.num r) = false := by
  simp [JSVal.looseNe]

theorem ite_lt_eq_max (q l : ℚ) : (if q < l then l else q) = max q l := by
  rcases lt_or_le q l with h | h
  · simp [h, max_eq_right h.le]
  · simp [not_lt.mpr h, max_eq_left h]

theorem ite_gt_eq_min (a h : ℚ) : (if h < a then h else a) = min a h := by
  rcases lt_or_le h a with h1 | h1
  · simp [h1, min_eq_right h1.le]
  · simp [not_lt.mpr h1, min_eq_left h1]

theorem clampStatements_num (o : Options) (q : ℚ) :
    clampStatements o (JSVal.num q) = JSVal.num (clampTo o.min o.max q) := by
  unfold clampStatements clampTo
  cases hmin : o.min with
  | none =>
    cases hmax : o.max with
    | none => simp
    | some h =>
      simp only [JSVal.ofOption, JSVal.lt, JSVal.gt, Option.isSome_some, Option.isSome_none,
        Bool.true_and, Bool.false_and, decide_eq_true_eq, Bool.false_eq_true, if_false]
      rw [← ite_gt_eq_min]
      split_ifs <;> rfl
  | some l =>
    cases hmax : o.max with
    | none =>
      simp only [JSVal.ofOption, JSVal.lt, JSVal.gt, Option.isSome_some, Option.isSome_none,
        Bool.true_and, Bool.false_and, decide_eq_true_eq, Bool.false_eq_true, if_false]
      rw [← ite_lt_eq_max]
      split_ifs <;> rfl
    | some h =>
      simp only [JSVal.ofOption, JSVal.lt, JSVal.gt, Option.isSome_some,
        Bool.true_and, decide_eq_true_eq]
      rw [← ite_gt_eq_min, ← ite_lt_eq_max]
      by_cases h1 : q < l
      · simp only [h1, if_true, JSVal.lt, decide_eq_true_eq]
        split_ifs <;> rfl
      · simp only [h1, if_false, JSVal.lt, decide_eq_true_eq]
        split_ifs <;> rfl

theorem clampTo_mem (lo hi q : ℚ) (h : lo ≤ hi) :
    lo ≤ clampTo (some lo) (some hi) q ∧ clampTo (some lo) (some hi) q ≤ hi := by
  unfold clampTo
  exact ⟨le_min (le_max_right _ _) h, min_le_right _ _⟩

theorem clampStatements_not_num (o : Options) (v : JSVal) (h : ∀ q, v ≠ JSVal.num q) :
    clampStatements o v = v := by
  unfold clampStatements
  cases v with
  | num q => exact absurd rfl (h q)
  | nan => cases o.min <;> cases o.max <;> simp [JSVal.lt, JSVal.gt, JSVal.ofOption]
  | undefined => cases o.min <;> cases o.max <;> simp [JSVal.lt, JSVal.gt, JSVal.ofOption]


theorem hitBox_iff (x W : ℚ) : (x > W - 15 - 34 ∧ x < W - 15 - 18) ↔ inHitBox x W := by
  unfold inHitBox
  constructor
  · rintro ⟨h1, h2⟩; constructor <;> linarith
  · rintro ⟨h1, h2⟩; constructor <;> linarith

theorem mouse_pointerdown (ev : Event) (pos : ℚ × ℚ) (node : Node) (w : Widget) (o : Options)
    (hopt : w.options = some o) (ht : ev.type = "pointerdown") :
    ∃ r, mouseAnnotated ev pos node w = Except.ok r
      ∧ r.widget =
        { w with
          value :=
            if inHitBox pos.1 (widgetWidth w node) then
              (if button_action w = "Reset" then JSVal.ofOption o.reset
               else if button_action w = "Disable" then JSVal.ofOption o.disable
               else w.value)
            else clampStatements o (w.value.add
              (JSVal.num (zoneDelta pos.1 (widgetWidth w node) * (1 / 10) * orElseNum o.step 1))) }
      ∧ r.prompts = []
      ∧ r.timers = (if JSVal.looseNe w.value r.widget.value then [{ delay := 20, pos := pos }]
          else []) := by
  unfold mouseAnnotated
  simp only [hopt, ht, hitBox_iff]
  have hne : ("pointerdown" == "pointermove") = false := by decide
  simp only [hne, Bool.and_false, Bool.false_eq_true, if_false]
  by_cases hb : inHitBox pos.1 (orElseNum w.width node.size0)
  · by_cases h1 : button_action w = "Reset"
    · simp [hb, h1, widgetWidth]
    · by_cases h2 : button_action w = "Disable"
      · simp [hb, h1, h2, widgetWidth]
      · simp [hb, h1, h2, widgetWidth]
        cases w
        simp_all
  · simp [hb, widgetWidth]

theorem mouse_pointermove (ev : Event) (pos : ℚ × ℚ) (node : Node) (w : Widget) (o : Options)
    (hopt : w.options = some o) (ht : ev.type = "pointermove") :
    ∃ r, mouseAnnotated ev pos node w = Except.ok r
      ∧ r.widget =
        { w with
          value :=
            if zoneDelta pos.1 (widgetWidth w node) = 0 ∨ ¬ inBounds pos.1 (widgetWidth w node) then
              clampStatements o
                (match ev.deltaX with
                  | some dx =>
                    if dx ≠ 0 then w.value.add (JSVal.num (dx * (1 / 10) * orElseNum o.step 1))
                    else w.value
                  | none => w.value)
            else w.value }
      ∧ r.prompts = []
      ∧ r.timers = (if JSVal.looseNe w.value r.widget.value then [{ delay := 20, pos := pos }]
          else []) := by
  unfold mouseAnnotated
  simp only [hopt, ht]
  have hne1 : ("pointermove" == "pointerdown") = false := by decide
  have hne2 : ("pointermove" == "pointerup") = false := by decide
  have heq : ("pointermove" == "pointermove") = true := by decide
  simp only [hne1, hne2, heq, Bool.and_true, Bool.false_eq_true, if_false]
  by_cases hz : zoneDelta pos.1 (orElseNum w.width node.size0) = 0
  · simp [hz, widgetWidth]
  · by_cases hb : inBounds pos.1 (orElseNum w.width node.size0)
    · have hb2 := hb
      unfold inBounds at hb2
      simp [hz, hb, hb2, widgetWidth]
      cases w
      simp_all
    · have hb2 := hb
      unfold inBounds at hb2
      simp [hz, hb, hb2, widgetWidth]

theorem clamp_add_stepped (o : Options) (v : JSVal) (k : ℚ) :
    clampStatements o (v.add (JSVal.num (k * (1 / 10) * orElseNum o.step 1)))
      = steppedValue o v k := by
  cases v with
  | num q => simp [JSVal.add, steppedValue, clampStatements_num]
  | nan =>
    simp only [JSVal.add, steppedValue]
    exact clampStatements_not_num o JSVal.nan (by intro q h; cases h)
  | undefined =>
    simp only [JSVal.add, steppedValue]
    exact clampStatements_not_num o JSVal.nan (by intro q h; cases h)

theorem clampStatements_inRange (w : Widget) (o : Options) (lo hi q : ℚ)
    (hmin : o.min = some lo) (hmax : o.max = some hi) (hle : lo ≤ hi) :
    inRange { w with value := clampStatements o (JSVal.num q) } lo hi := by
  simp only [inRange, clampStatements_num, hmin, hmax]
  exact clampTo_mem lo hi _ hle

theorem mouse_other (ev : Event) (pos : ℚ × ℚ) (node : Node) (w : Widget)
    (h1 : ev.type ≠ "pointermove") (h2 : ev.type ≠ "pointerdown") :
    ∃ r, mouseAnnotated ev pos node w = Except.ok r
      ∧ r.widget = w
      ∧ r.timers = (if JSVal.looseNe w.value w.value then [{ delay := 20, pos := pos }]
          else []) := by
  have e1 : (ev.type == "pointermove") = false := by simpa using h1
  have e2 : (ev.type == "pointerdown") = false := by simpa using h2
  unfold mouseAnnotated
  simp only [e1, e2, Bool.and_false, Bool.false_eq_true, if_false]
  split_ifs <;> simp_all

theorem button_reset_some (w : Widget) (h : button_action w = "Reset") :
    ∃ o r, w.options = some o ∧ o.reset = some r := by
  unfold button_action at h
  split_ifs at h with h1 h2 h3 h4
  · exact absurd h (by decide)
  · cases ho : w.options with
    | none => simp [optReset, ho] at h2
    | some o =>
      cases hr : o.reset with
      | none => simp [optReset, ho, hr] at h2
      | some r => exact ⟨o, r, rfl, hr⟩
  · exact absurd h (by decide)
  · exact absurd h (by decide)
  · exact absurd h (by decide)

theorem button_disable_some (w : Widget) (h : button_action w = "Disable") :
    ∃ o d, w.options = some o ∧ o.disable = some d := by
  unfold button_action at h
  split_ifs at h with h1 h2 h3 h4
  · exact absurd h (by decide)
  · exact absurd h (by decide)
  · cases ho : w.options with
    | none => simp [optDisable, ho] at h3
    | some o =>
      cases hr : o.disable with
      | none => simp [optDisable, ho, hr] at h3
      | some r => exact ⟨o, r, rfl, hr⟩
  · exact absurd h (by decide)
  · exact absurd h (by decide)

/-! ## The button state (C3, C4) -/

/-- C3: `button_action` is the ordered decision table of the specification
(`None`, then `Reset`, then `Disable`, then `No Reset`, otherwise
`No Disable`), and its result is always one of these five states. -/
theorem button_action_decision_table (w : Widget) :
    button_action w
        = firstMatch (buttonTable w.value (optReset w) (optDisable w)) "No Disable"
      ∧ button_action w ∈ ["None", "Reset", "Disable", "No Reset", "No Disable"] := by
  constructor
  · unfold button_action buttonTable
    cases hr : optReset w <;> cases hd : optDisable w <;>
      simp [firstMatch, JSVal.ofOption, looseNe_num_iff]
  · unfold button_action
    split_ifs <;> simp

/-- C4 (counterexample): with `reset = 0`, `disable = -1` and `value = 0` the
value equals the configured reset, yet `button_action` returns `Disable`, not
`No Reset`. -/
theorem button_action_reset_match_counterexample :
    optReset { value := JSVal.num 0, options := some { reset := some 0, disable := some (-1) } }
        = some 0
      ∧ button_action
          { value := JSVal.num 0, options := some { reset := some 0, disable := some (-1) } }
        = "Disable"
      ∧ button_action
          { value := JSVal.num 0, options := some { reset := some 0, disable := some (-1) } }
        ≠ "No Reset" := by
  refine ⟨rfl, by decide, by decide⟩

/-- C4 (amended): when reset is configured and the value equals it,
`button_action` returns `No Reset` if disable is not configured or the value
equals disable as well, and `Disable` otherwise; with `reset = 0` and
`disable = -1`, value `5` gives `Reset` and value `0` gives `Disable`. -/
theorem button_action_reset_match (w : Widget) (r : ℚ)
    (hr : optReset w = some r) (hv : w.value = JSVal.num r) :
    button_action w
        = (match optDisable w with
            | none => "No Reset"
            | some d => if r = d then "No Reset" else "Disable")
      ∧ button_action
          { value := JSVal.num 5, options := some { reset := some 0, disable := some (-1) } }
        = "Reset"
      ∧ button_action
          { value := JSVal.num 0, options := some { reset := some 0, disable := some (-1) } }
        = "Disable" := by
  refine ⟨?_, by decide, by decide⟩
  unfold button_action
  cases hd : optDisable w with
  | none => simp [hr, hv, JSVal.ofOption, JSVal.looseNe]
  | some d =>
    by_cases h : r = d
    · simp [hr, hv, h, JSVal.ofOption, JSVal.looseNe]
    · simp [hr, hv, h, JSVal.ofOption, JSVal.looseNe]

/-- C4 (witness): the amended rule at `reset = 3`, `value = 3`, no disable. -/
theorem button_action_reset_match_witness :
    button_action { value := JSVal.num 3, options := some { reset := some 3 } } = "No Reset" :=
  (button_action_reset_match
    { value := JSVal.num 3, options := some { reset := some 3 } } 3 rfl rfl).1

/-! ## The interaction handler (C2, C5, C6) -/

theorem mouse_step_inRange (w : Widget) (o : Options) (lo hi : ℚ) (node : Node)
    (e : Event × (ℚ × ℚ))
    (hopt : w.options = some o) (hmin : o.min = some lo) (hmax : o.max = some hi)
    (hle : lo ≤ hi) (hin : inRange w lo hi) (he : dragOrNudge w node e) :
    ∃ r, mouseAnnotated e.1 e.2 node w = Except.ok r
      ∧ r.widget.options = some o ∧ r.widget.width = w.width ∧ inRange r.widget lo hi := by
  obtain ⟨q, hq⟩ : ∃ q, w.value = JSVal.num q := by
    unfold inRange at hin
    cases hv : w.value with
    | num q => exact ⟨q, rfl⟩
    | nan => simp [hv] at hin
    | undefined => simp [hv] at hin
  rcases he with hm | ⟨hd, hb⟩
  · obtain ⟨r, hr, hw, -, -⟩ := mouse_pointermove e.1 e.2 node w o hopt hm
    refine ⟨r, hr, ?_, ?_, ?_⟩
    · rw [hw]; exact hopt
    · rw [hw]
    · rw [hw]
      split_ifs with hz
      · cases hdx : e.1.deltaX with
        | none =>
          simp only [hq]
          exact clampStatements_inRange w o lo hi q hmin hmax hle
        | some dx =>
          by_cases h0 : dx = 0
          · simp only [h0, ne_eq, not_true_eq_false, if_false, hq]
            exact clampStatements_inRange w o lo hi q hmin hmax hle
          · simp only [ne_eq, h0, not_false_eq_true, if_true, hq, JSVal.add]
            exact clampStatements_inRange w o lo hi _ hmin hmax hle
      · simpa [inRange] using hin
  · obtain ⟨r, hr, hw, -, -⟩ := mouse_pointerdown e.1 e.2 node w o hopt hd
    refine ⟨r, hr, ?_, ?_, ?_⟩
    · rw [hw]; exact hopt
    · rw [hw]
    · rw [hw]
      simp only [hb, if_false, hq, JSVal.add]
      exact clampStatements_inRange w o lo hi _ hmin hmax hle

/-- C2 (counterexample): with `min = 0`, `max = 10`, `reset = -1` and value
`5`, a pointerdown in the button hit-box snaps the value to `-1`, outside
`[0, 10]`, and schedules the commit with it; and a prompt entry of `50` on a
widget with the same range stores `50`. -/
theorem range_enforcement_counterexample :
    (∃ r,
        mouseAnnotated { type := "pointerdown" } (160, 0) {}
            { value := JSVal.num 5, width := some 200,
              options := some { min := some 0, max := some 10, reset := some (-1) } }
          = Except.ok r
        ∧ r.widget.value = JSVal.num (-1)
        ∧ r.timers = [{ delay := 20, pos := (160, 0) }]
        ∧ ¬ inRange r.widget 0 10)
      ∧ ∃ σ,
        promptConfirm
            (makeAnnotated
              { value := JSVal.num 5, width := some 200, callback := Callback.host 0,
                options := some { min := some 0, max := some 10 } } {})
            (JSVal.num 50) {} (100, 0) []
          = Except.ok σ
        ∧ σ.widget.value = JSVal.num 50
        ∧ ¬ inRange σ.widget 0 10 := by
  constructor
  · obtain ⟨r, hr, hw, -, ht⟩ :=
      mouse_pointerdown { type := "pointerdown" } (160, 0) {}
        { value := JSVal.num 5, width := some 200,
          options := some { min := some 0, max := some 10, reset := some (-1) } }
        { min := some 0, max := some 10, reset := some (-1) } rfl rfl
    have hb : inHitBox (160 : ℚ) 200 := by norm_num [inHitBox]
    have hv : r.widget.value = JSVal.num (-1) := by
      rw [hw]
      simp [widgetWidth, orElseNum, hb, JSVal.ofOption, button_action, optReset, optDisable,
        JSVal.looseNe]
      norm_num
    refine ⟨r, hr, hv, ?_, ?_⟩
    · rw [ht, hv]
      simp [JSVal.looseNe]
      norm_num
    · simp [inRange, hv]
  · refine ⟨_, rfl, rfl, ?_⟩
    simp [inRange]
    norm_num

/-- C2 (amended): for a widget with `min <= max` both defined and a finite
value, a pointer event handled by `mouseAnnotated` other than a pointerdown in
the button hit-box either leaves the value unchanged and schedules no commit,
or leaves the value within `[min, max]` (drag and nudge clamp before the
commit is scheduled); a pointerdown in the hit-box leaves the value unchanged
or sets it to `options.reset` or `options.disable` as it is, without clamping. -/
theorem range_enforcement_drag_nudge (ev : Event) (pos : ℚ × ℚ) (node : Node) (w : Widget)
    (o : Options) (lo hi q : ℚ)
    (hopt : w.options = some o) (hmin : o.min = some lo) (hmax : o.max = some hi)
    (hle : lo ≤ hi) (hq : w.value = JSVal.num q) :
    ∃ r, mouseAnnotated ev pos node w = Except.ok r
      ∧ (¬ (ev.type = "pointerdown" ∧ inHitBox pos.1 (widgetWidth w node)) →
          (r.widget.value = w.value ∧ r.timers = []) ∨ inRange r.widget lo hi)
      ∧ ((ev.type = "pointerdown" ∧ inHitBox pos.1 (widgetWidth w node)) →
          r.widget.value = w.value ∨ r.widget.value = JSVal.ofOption o.reset
            ∨ r.widget.value = JSVal.ofOption o.disable) := by
  by_cases hm : ev.type = "pointermove"
  · obtain ⟨r, hr, hw, -, ht⟩ := mouse_pointermove ev pos node w o hopt hm
    refine ⟨r, hr, ?_, ?_⟩
    · intro _
      by_cases hz : zoneDelta pos.1 (widgetWidth w node) = 0 ∨ ¬ inBounds pos.1 (widgetWidth w node)
      · right
        rw [hw]
        simp only [hz, if_true]
        cases hdx : ev.deltaX with
        | none =>
          simp only [hq]
          exact clampStatements_inRange w o lo hi q hmin hmax hle
        | some dx =>
          by_cases h0 : dx = 0
          · simp only [h0, ne_eq, not_true_eq_false, if_false, hq]
            exact clampStatements_inRange w o lo hi q hmin hmax hle
          · simp only [ne_eq, h0, not_false_eq_true, if_true, hq, JSVal.add]
            exact clampStatements_inRange w o lo hi _ hmin hmax hle
      · left
        have hv : r.widget.value = w.value := by rw [hw]; simp only [hz, if_false]
        refine ⟨hv, ?_⟩
        rw [ht, hv, hq, looseNe_self_num]
        simp
    · rintro ⟨hd, -⟩
      rw [hm] at hd
      exact absurd hd (by decide)
  · by_cases hd : ev.type = "pointerdown"
    · obtain ⟨r, hr, hw, -, ht⟩ := mouse_pointerdown ev pos node w o hopt hd
      refine ⟨r, hr, ?_, ?_⟩
      · intro hn
        have hb : ¬ inHitBox pos.1 (widgetWidth w node) := fun h => hn ⟨hd, h⟩
        right
        rw [hw]
        simp only [hb, if_false, hq, JSVal.add]
        exact clampStatements_inRange w o lo hi _ hmin hmax hle
      · rintro ⟨-, hb⟩
        rw [hw]
        simp only [hb, if_true]
        split_ifs
        · exact Or.inr (Or.inl rfl)
        · exact Or.inr (Or.inr rfl)
        · exact Or.inl rfl
    · obtain ⟨r, hr, hw, ht⟩ := mouse_other ev pos node w hm hd
      refine ⟨r, hr, ?_, ?_⟩
      · intro _
        left
        refine ⟨by rw [hw], ?_⟩
        rw [ht, hq, looseNe_self_num]
        simp
      · rintro ⟨h, -⟩
        exact absurd h hd

/-- C2 (witness): a drag of `+100` in the middle zone on a widget with range
`[0, 10]` and value `5`. -/
theorem range_enforcement_drag_nudge_witness :
    ∃ r,
      mouseAnnotated { type := "pointermove", deltaX := some 100 } (100, 0) {}
          { value := JSVal.num 5, width := some 200,
            options := some { min := some 0, max := some 10 } }
        = Except.ok r
      ∧ inRange r.widget 0 10 := by
  obtain ⟨r, hr, h1, -⟩ :=
    range_enforcement_drag_nudge { type := "pointermove", deltaX := some 100 } (100, 0) {}
      { value := JSVal.num 5, width := some 200,
        options := some { min := some 0, max := some 10 } }
      { min := some 0, max := some 10 } 0 10 5 rfl rfl rfl (by norm_num) rfl
  refine ⟨r, hr, ?_⟩
  rcases h1 (by rintro ⟨h, -⟩; exact absurd h (by decide)) with ⟨hv, -⟩ | hin
  · simp only [inRange, hv]
    norm_num
  · exact hin

/-- C5 (counterexample): with `reset = 0` and value `0` the button state is
`No Reset`; a pointerdown at `x = 160` on a widget of width `200` lies in the
hit-box and in the right zone, and leaves the value `0`, where the claim puts
the nudged value `0.1`. -/
theorem pointerdown_claim_counterexample :
    ∃ r,
      mouseAnnotated { type := "pointerdown" } (160, 0) {}
          { value := JSVal.num 0, width := some 200, options := some { reset := some 0 } }
        = Except.ok r
      ∧ r.widget.value = JSVal.num 0
      ∧ pointerdownClaim
          { value := JSVal.num 0, width := some 200, options := some { reset := some 0 } }
          { reset := some 0 } 160 200
        = JSVal.num (1 / 10)
      ∧ r.widget.value
        ≠ pointerdownClaim
          { value := JSVal.num 0, width := some 200, options := some { reset := some 0 } }
          { reset := some 0 } 160 200 := by
  obtain ⟨r, hr, hw, -, -⟩ :=
    mouse_pointerdown { type := "pointerdown" } (160, 0) {}
      { value := JSVal.num 0, width := some 200, options := some { reset := some 0 } }
      { reset := some 0 } rfl rfl
  have hb : inHitBox (160 : ℚ) 200 := by norm_num [inHitBox]
  have hbtn : button_action
      { value := JSVal.num 0, width := some 200, options := some { reset := some 0 } }
        = "No Reset" := by decide
  have hv : r.widget.value = JSVal.num 0 := by
    rw [hw]
    simp [widgetWidth, orElseNum, hb, hbtn]
  have hc : pointerdownClaim
      { value := JSVal.num 0, width := some 200, options := some { reset := some 0 } }
      { reset := some 0 } 160 200 = JSVal.num (1 / 10) := by
    simp [pointerdownClaim, hbtn, steppedValue, clampTo, zoneDelta, orElseNum]
    norm_num
  refine ⟨r, hr, hv, hc, ?_⟩
  rw [hv, hc]
  simp

/-- C5 (amended): on a pointerdown in the button hit-box the value becomes
`options.reset` when the button state is `Reset`, `options.disable` when it is
`Disable`, and stays as it is in the other states; on a pointerdown outside
the hit-box the value becomes `value + delta * 0.1 * step` clamped to
`[min, max]`, the step being 1 when unset or 0. -/
theorem pointerdown_semantics (ev : Event) (pos : ℚ × ℚ) (node : Node) (w : Widget)
    (o : Options) (hopt : w.options = some o) (ht : ev.type = "pointerdown") :
    ∃ r, mouseAnnotated ev pos node w = Except.ok r
      ∧ (inHitBox pos.1 (widgetWidth w node) → button_action w = "Reset" →
          ∃ x, o.reset = some x ∧ r.widget.value = JSVal.num x)
      ∧ (inHitBox pos.1 (widgetWidth w node) → button_action w = "Disable" →
          ∃ d, o.disable = some d ∧ r.widget.value = JSVal.num d)
      ∧ (inHitBox pos.1 (widgetWidth w node) → button_action w ≠ "Reset" →
          button_action w ≠ "Disable" → r.widget.value = w.value)
      ∧ (¬ inHitBox pos.1 (widgetWidth w node) →
          r.widget.value
            = steppedValue o w.value (zoneDelta pos.1 (widgetWidth w node))) := by
  obtain ⟨r, hr, hw, -, -⟩ := mouse_pointerdown ev pos node w o hopt ht
  refine ⟨r, hr, ?_, ?_, ?_, ?_⟩
  · intro hb hbtn
    obtain ⟨o1, x, ho1, hx⟩ := button_reset_some w hbtn
    have : o1 = o := by rw [hopt] at ho1; exact (Option.some.inj ho1).symm
    subst this
    refine ⟨x, hx, ?_⟩
    rw [hw]
    simp [hb, hbtn, hx, JSVal.ofOption]
  · intro hb hbtn
    obtain ⟨o1, d, ho1, hd⟩ := button_disable_some w hbtn
    have : o1 = o := by rw [hopt] at ho1; exact (Option.some.inj ho1).symm
    subst this
    refine ⟨d, hd, ?_⟩
    rw [hw]
    simp [hb, hbtn, hd, JSVal.ofOption]
  · intro hb h1 h2
    rw [hw]
    simp [hb, h1, h2]
  · intro hb
    rw [hw]
    simp only [hb, if_false]
    exact clamp_add_stepped o w.value _

/-- C5 (witness): a nudge in the left zone from `5` with step `2` gives `4.8`. -/
theorem pointerdown_semantics_witness :
    ∃ r,
      mouseAnnotated { type := "pointerdown" } (10, 0) {}
          { value := JSVal.num 5, width := some 200, options := some { step := some 2 } }
        = Except.ok r
      ∧ r.widget.value = JSVal.num (24 / 5) := by
  obtain ⟨r, hr, -, -, -, h4⟩ :=
    pointerdown_semantics { type := "pointerdown" } (10, 0) {}
      { value := JSVal.num 5, width := some 200, options := some { step := some 2 } }
      { step := some 2 } rfl rfl
  refine ⟨r, hr, ?_⟩
  rw [h4 (by norm_num [inHitBox, widgetWidth, orElseNum])]
  simp [steppedValue, clampTo, zoneDelta, widgetWidth, orElseNum]
  norm_num

/-- C6 (counterexample): a pointermove with `deltaX = 5` at `x = 10` on a
widget of width `200` is within the bounds `-3 < x < 203`, so the claim puts
the value at `5.5`; the pointer is in the left zone, the drag is locked, and
the value stays `5`. -/
theorem pointermove_claim_counterexample :
    ∃ r,
      mouseAnnotated { type := "pointermove", deltaX := some 5 } (10, 0) {}
          { value := JSVal.num 5, width := some 200, options := some {} }
        = Except.ok r
      ∧ r.widget.value = JSVal.num 5
      ∧ pointermoveClaim { value := JSVal.num 5, width := some 200, options := some {} } {}
          10 200 5
        = some (JSVal.num (11 / 2))
      ∧ some r.widget.value
        ≠ pointermoveClaim { value := JSVal.num 5, width := some 200, options := some {} } {}
          10 200 5 := by
  obtain ⟨r, hr, hw, -, -⟩ :=
    mouse_pointermove { type := "pointermove", deltaX := some 5 } (10, 0) {}
      { value := JSVal.num 5, width := some 200, options := some {} } {} rfl rfl
  have hbd : inBounds (10 : ℚ) 200 := by norm_num [inBounds]
  have hz : zoneDelta (10 : ℚ) 200 = -1 := by norm_num [zoneDelta]
  have hv : r.widget.value = JSVal.num 5 := by
    rw [hw]
    simp [widgetWidth, orElseNum, hbd, hz]
  have hc : pointermoveClaim { value := JSVal.num 5, width := some 200, options := some {} } {}
      10 200 5 = some (JSVal.num (11 / 2)) := by
    simp [pointermoveClaim, hbd, steppedValue, clampTo, orElseNum]
    norm_num
  refine ⟨r, hr, hv, hc, ?_⟩
  rw [hv, hc]
  simp
  norm_num

/-- C6 (amended): on a pointermove carrying a non-zero `deltaX`, the value
becomes `value + deltaX * 0.1 * step` clamped to `[min, max]` (the step being
1 when unset or 0) when the pointer is in the middle zone or outside the
widget bounds (`x <= -3` or `x >= width + 3`); when the pointer is in the left
or right zone within the bounds the value is unchanged. -/
theorem pointermove_semantics (ev : Event) (pos : ℚ × ℚ) (node : Node) (w : Widget)
    (o : Options) (dx : ℚ)
    (hopt : w.options = some o) (ht : ev.type = "pointermove")
    (hdx : ev.deltaX = some dx) (hne : dx ≠ 0) :
    ∃ r, mouseAnnotated ev pos node w = Except.ok r
      ∧ ((zoneDelta pos.1 (widgetWidth w node) = 0 ∨ ¬ inBounds pos.1 (widgetWidth w node)) →
          r.widget.value = steppedValue o w.value dx)
      ∧ ((zoneDelta pos.1 (widgetWidth w node) ≠ 0 ∧ inBounds pos.1 (widgetWidth w node)) →
          r.widget.value = w.value) := by
  obtain ⟨r, hr, hw, -, -⟩ := mouse_pointermove ev pos node w o hopt ht
  refine ⟨r, hr, ?_, ?_⟩
  · intro hz
    rw [hw]
    simp only [hz, if_true, hdx, ne_eq, hne, not_false_eq_true]
    exact clamp_add_stepped o w.value dx
  · rintro ⟨h1, h2⟩
    rw [hw]
    simp [h1, h2]

/-- C6 (witness): a drag of `+5` in the middle zone from `5` with range
`[0, 5.2]` gives `5.2`. -/
theorem pointermove_semantics_witness :
    ∃ r,
      mouseAnnotated { type := "pointermove", deltaX := some 5 } (100, 0) {}
          { value := JSVal.num 5, width := some 200,
            options := some { min := some 0, max := some (26 / 5) } }
        = Except.ok r
      ∧ r.widget.value = JSVal.num (26 / 5) := by
  obtain ⟨r, hr, h1, -⟩ :=
    pointermove_semantics { type := "pointermove", deltaX := some 5 } (100, 0) {}
      { value := JSVal.num 5, width := some 200,
        options := some { min := some 0, max := some (26 / 5) } }
      { min := some 0, max := some (26 / 5) } 5 rfl rfl rfl (by norm_num)
  refine ⟨r, hr, ?_⟩
  rw [h1 (Or.inl (by norm_num [zoneDelta, widgetWidth, orElseNum]))]
  simp [steppedValue, clampTo, orElseNum]
  norm_num

/-! ## The wrapped callback and the commit pipeline (C7 to C10) -/

theorem makeAnnotated_callback (stub : Widget) (inputData : InputData) :
    (makeAnnotated stub inputData).callback = Callback.wrapped stub.callback := rfl

/-- C7: on a widget built by `makeAnnotated` whose `options.mod` is defined, the
wrapped callback called with a value that is not `0` stores
`round((v - mod) / (step/10)) * (step/10) + mod` in `value` (that is `NaN`
when `step` is absent or `0`, or `v` is not a finite number) and does not
invoke the original callback: widget, node and call log are otherwise
unchanged. -/
theorem wrapped_callback_quantizes (stub : Widget) (inputData : InputData) (args : Args)
    (node : Node) (calls : List HostCall) (m : ℚ)
    (hmod : optMod (makeAnnotated stub inputData) = some m)
    (hv : JSVal.looseEq args.v (JSVal.num 0) = false) :
    callWidgetCallback (makeAnnotated stub inputData) args node calls
      = Except.ok
          { widget :=
              { makeAnnotated stub inputData with
                value :=
                  match args.v, (makeAnnotated stub inputData).options.bind (fun o => o.step) with
                  | JSVal.num q, some st =>
                    if st = 0 then JSVal.nan
                    else JSVal.num ((round ((q - m) / (st / 10)) : ℚ) * (st / 10) + m)
                  | _, _ => JSVal.nan }
            node := node
            calls := calls } := by
  unfold callWidgetCallback
  rw [makeAnnotated_callback]
  simp only [invokeCallback, hv, Bool.false_eq_true, if_false, hmod]
  congr 2
  cases args.v <;> cases ((makeAnnotated stub inputData).options.bind fun o => o.step) <;>
    simp [quantize, mathRound, round_eq]

/-- C7 (witness): with `mod = 2`, `step = 10` and `v = 7.6` the stored value is
`8`, and the host callback is not invoked. -/
theorem wrapped_callback_quantizes_witness :
    callWidgetCallback
        (makeAnnotated
          { value := JSVal.num 1, callback := Callback.host 0,
            options := some { mod := some 2, step := some 10 } } {})
        { v := JSVal.num (38 / 5) } {} []
      = Except.ok
          { widget :=
              { makeAnnotated
                  { value := JSVal.num 1, callback := Callback.host 0,
                    options := some { mod := some 2, step := some 10 } } {} with
                value := JSVal.num 8 }
            node := {}
            calls := [] } := by
  have h :=
    wrapped_callback_quantizes
      { value := JSVal.num 1, callback := Callback.host 0,
        options := some { mod := some 2, step := some 10 } } {}
      { v := JSVal.num (38 / 5) } {} [] 2 rfl (by simp [JSVal.looseEq, JSVal.looseNe])
  have hr : round (((38 / 5 : ℚ) - 2) / (10 / 10)) = 6 := by
    rw [round_eq, Int.floor_eq_iff]
    norm_num
  have hstep :
      (makeAnnotated
          { value := JSVal.num 1, callback := Callback.host 0,
            options := some { mod := some 2, step := some 10 } } {}).options.bind
        (fun o => o.step) = some 10 := rfl
  rw [h]
  simp only [hstep]
  rw [if_neg (by norm_num), hr]
  norm_num

/-- C8: on every widget built by `makeAnnotated`, the wrapped callback called
with `0` changes nothing and invokes nothing, whether or not `options.mod` is
defined and whatever the original callback is; called with a value that is not
`0` while `options.mod` is undefined it hands the same arguments and the same
state to the original callback and does nothing else, so that an original
callback that is a host function is invoked exactly once, with the same
arguments, and nothing else changes. -/
theorem wrapped_callback_dispatch (stub : Widget) (inputData : InputData) (args : Args)
    (node : Node) (calls : List HostCall) :
    (args.v = JSVal.num 0 →
        callWidgetCallback (makeAnnotated stub inputData) args node calls
          = Except.ok { widget := makeAnnotated stub inputData, node := node, calls := calls })
      ∧ (JSVal.looseEq args.v (JSVal.num 0) = false →
          optMod (makeAnnotated stub inputData) = none →
          callWidgetCallback (makeAnnotated stub inputData) args node calls
              = invokeCallback stub.callback args
                  { widget := makeAnnotated stub inputData, node := node, calls := calls }
            ∧ ∀ id, stub.callback = Callback.host id →
              callWidgetCallback (makeAnnotated stub inputData) args node calls
                = Except.ok
                    { widget := makeAnnotated stub inputData
                      node := node
                      calls := calls ++ [{ id := id, args := args }] }) := by
  constructor
  · intro h0
    unfold callWidgetCallback
    rw [makeAnnotated_callback]
    simp [invokeCallback, h0, JSVal.looseEq, JSVal.looseNe]
  · intro hv hmod
    constructor
    · unfold callWidgetCallback
      rw [makeAnnotated_callback]
      simp only [invokeCallback, hv, Bool.false_eq_true, if_false, hmod]
    · intro id hcb
      unfold callWidgetCallback
      rw [makeAnnotated_callback, hcb]
      simp only [invokeCallback, hv, Bool.false_eq_true, if_false, hmod]

/-- C8 (witness): the value `0` is swallowed on a widget built from a stub
without callback; on one built from a stub with host callback `7` and no
`mod`, the value `3` is passed on once. -/
theorem wrapped_callback_dispatch_witness :
    callWidgetCallback (makeAnnotated { value := JSVal.num 1 } {}) { v := JSVal.num 0 } {} []
      = Except.ok
          { widget := makeAnnotated { value := JSVal.num 1 } {}
            node := {}
            calls := [] }
    ∧ callWidgetCallback
        (makeAnnotated { value := JSVal.num 1, callback := Callback.host 7 } {})
        { v := JSVal.num 3 } {} []
      = Except.ok
          { widget := makeAnnotated { value := JSVal.num 1, callback := Callback.host 7 } {}
            node := {}
            calls := [{ id := 7, args := { v := JSVal.num 3 } }] } :=
  ⟨(wrapped_callback_dispatch { value := JSVal.num 1 } {} { v := JSVal.num 0 } {} []).1 rfl,
   ((wrapped_callback_dispatch { value := JSVal.num 1, callback := Callback.host 7 } {}
      { v := JSVal.num 3 } {} []).2 (by simp [JSVal.looseEq, JSVal.looseNe]) rfl).2 7 rfl⟩

/-- C9: on a widget built by `makeAnnotated` from a stub without a callback and
without `mod`, the wrapped callback called with `5` raises a `TypeError`
(`callback_orig` is `undefined`), and so does a commit of `5` through
`inner_value_change`. -/
theorem wrapped_callback_undefined_original_throws :
    callWidgetCallback
        (makeAnnotated { value := JSVal.num 1, name := "amount" }
          { typeName := "FLOAT", options := some { min := some 0, max := some 10 } })
        { v := JSVal.num 5 } {} []
      = Except.error (JSError.typeError "callback_orig is undefined")
    ∧ inner_value_change
        (makeAnnotated { value := JSVal.num 1, name := "amount" }
          { typeName := "FLOAT", options := some { min := some 0, max := some 10 } })
        (JSVal.num 5) {} (0, 0) []
      = Except.error (JSError.typeError "callback_orig is undefined") := by
  constructor
  · simp [callWidgetCallback, makeAnnotated, invokeCallback, JSVal.looseEq, JSVal.looseNe,
      optMod, Options.assignOpt, Options.assign]
  · simp [inner_value_change, makeAnnotated, invokeCallback, JSVal.looseEq, JSVal.looseNe,
      optMod, Options.assignOpt, Options.assign, propertyNamed]

theorem inner_value_change_value (stub : Widget) (inputData : InputData) (v : JSVal)
    (node : Node) (pos : ℚ × ℚ) (calls : List HostCall) (id : ℕ)
    (hcb : stub.callback = Callback.host id) :
    ∃ σ, inner_value_change (makeAnnotated stub inputData) v node pos calls = Except.ok σ
      ∧ σ.widget.value
        = (match optMod (makeAnnotated stub inputData) with
            | none => v
            | some m =>
              if JSVal.looseEq v (JSVal.num 0) then v
              else quantize v ((makeAnnotated stub inputData).options.bind (fun o => o.step)) m) := by
  unfold inner_value_change
  simp only [makeAnnotated_callback, hcb, invokeCallback, optMod]
  by_cases h0 : JSVal.looseEq v (JSVal.num 0) = true
  · simp only [h0, if_true]
    refine ⟨_, rfl, ?_⟩
    cases ((makeAnnotated stub inputData).options.bind fun o => o.mod) <;> simp
  · simp only [h0, Bool.false_eq_true, if_false]
    cases ((makeAnnotated stub inputData).options.bind fun o => o.mod) with
    | none => exact ⟨_, rfl, rfl⟩
    | some m => exact ⟨_, rfl, rfl⟩

theorem quantize_example : quantize (JSVal.num (38 / 5)) (some 10) 2 = JSVal.num 8 := by
  have hr : mathRound (((38 / 5 : ℚ) - 2) / (10 / 10)) = 6 := by
    unfold mathRound
    rw [Int.floor_eq_iff]
    norm_num
  unfold quantize
  simp only
  rw [if_neg (by norm_num), hr]
  norm_num

/-- C10 (counterexample): with `mod = 2` and `step = 10`, committing `7.6`
through `inner_value_change` returns with the value `8`, not `7.6`. -/
theorem commit_value_counterexample :
    ∃ σ,
      inner_value_change
          (makeAnnotated
            { value := JSVal.num 1, callback := Callback.host 0,
              options := some { mod := some 2, step := some 10 } } {})
          (JSVal.num (38 / 5)) {} (0, 0) []
        = Except.ok σ
      ∧ σ.widget.value = JSVal.num 8
      ∧ σ.widget.value ≠ JSVal.num (38 / 5) := by
  obtain ⟨σ, hσ, hv⟩ :=
    inner_value_change_value
      { value := JSVal.num 1, callback := Callback.host 0,
        options := some { mod := some 2, step := some 10 } } {}
      (JSVal.num (38 / 5)) {} (0, 0) [] 0 rfl
  have h8 : σ.widget.value = JSVal.num 8 := by
    have hmod :
        optMod
          (makeAnnotated
            { value := JSVal.num 1, callback := Callback.host 0,
              options := some { mod := some 2, step := some 10 } } {}) = some 2 := rfl
    have hstep :
        (makeAnnotated
            { value := JSVal.num 1, callback := Callback.host 0,
              options := some { mod := some 2, step := some 10 } } {}).options.bind
          (fun o => o.step) = some 10 := rfl
    rw [hv]
    simp only [hmod, hstep, JSVal.looseEq, JSVal.looseNe]
    rw [if_neg (by norm_num)]
    exact quantize_example
  refine ⟨σ, hσ, h8, ?_⟩
  rw [h8]
  simp
  norm_num

/-- C10 (amended): on a widget built by `makeAnnotated` from a stub whose
callback is a host function, `inner_value_change(widget, v, node, pos)`
returns, and then `widget.value` equals `v` when `options.mod` is undefined or
`v` is `0`, and equals the quantized value
`round((v - mod) / (step/10)) * (step/10) + mod` otherwise (the host callback
is only recorded; its own effects are outside this code). -/
theorem commit_value (stub : Widget) (inputData : InputData) (v : JSVal) (node : Node)
    (pos : ℚ × ℚ) (calls : List HostCall) (id : ℕ)
    (hcb : stub.callback = Callback.host id) :
    ∃ σ, inner_value_change (makeAnnotated stub inputData) v node pos calls = Except.ok σ
      ∧ σ.widget.value
        = (match optMod (makeAnnotated stub inputData) with
            | none => v
            | some m =>
              if JSVal.looseEq v (JSVal.num 0) then v
              else quantize v ((makeAnnotated stub inputData).options.bind (fun o => o.step)) m) :=
  inner_value_change_value stub inputData v node pos calls id hcb

/-- C10 (witness): without `mod`, committing `7.6` leaves the value `7.6`. -/
theorem commit_value_witness :
    ∃ σ,
      inner_value_change
          (makeAnnotated { value := JSVal.num 1, callback := Callback.host 0 } {})
          (JSVal.num (38 / 5)) {} (0, 0) []
        = Except.ok σ
      ∧ σ.widget.value = JSVal.num (38 / 5) :=
  commit_value { value := JSVal.num 1, callback := Callback.host 0 } {}
    (JSVal.num (38 / 5)) {} (0, 0) [] 0 rfl


/-! ## Property sync, commit scheduling and tap-to-edit (C11 to C13) -/

theorem invokeCallback_callable (cb : Callback) (args : Args) (σ : World)
    (h : cb.callable = true) :
    ∃ τ, invokeCallback cb args σ = Except.ok τ ∧ τ.node = σ.node := by
  induction cb with
  | absent => simp [Callback.callable] at h
  | host id => exact ⟨_, rfl, rfl⟩
  | wrapped orig ih =>
    simp only [invokeCallback]
    split_ifs
    · exact ⟨_, rfl, rfl⟩
    · cases optMod σ.widget with
      | none => exact ih h
      | some sh => exact ⟨_, rfl, rfl⟩

theorem inner_value_change_node (widget : Widget) (v : JSVal) (node : Node) (pos : ℚ × ℚ)
    (calls : List HostCall)
    (hcb : widget.callback = Callback.absent ∨ widget.callback.callable = true) :
    ∃ σ, inner_value_change widget v node pos calls = Except.ok σ
      ∧ σ.node
        = (match propertyNamed { widget with value := v } node with
            | some p => node.setProperty p v
            | none => node) := by
  unfold inner_value_change
  rcases hcb with h | h
  · simp only [h]
    exact ⟨_, rfl, rfl⟩
  · cases hc : widget.callback with
    | absent => rw [hc] at h; simp [Callback.callable] at h
    | host id => simp only [invokeCallback]; exact ⟨_, rfl, rfl⟩
    | wrapped orig =>
      simp only
      rw [hc] at h
      exact invokeCallback_callable (Callback.wrapped orig) _ _ h

theorem any_key_iff (node : Node) (p : String) :
    node.properties.any (fun kv => kv.1 == p) = true ↔ node.hasProperty p := by
  unfold Node.hasProperty
  simp only [List.any_eq_true, beq_iff_eq]
  constructor
  · rintro ⟨⟨k, x⟩, hmem, hk⟩
    simp only at hk
    subst hk
    exact ⟨x, hmem⟩
  · rintro ⟨x, hmem⟩
    exact ⟨(p, x), hmem, rfl⟩

theorem inherited_contains_iff (node : Node) (p : String) :
    node.inherited.contains p = true ↔ p ∈ node.inherited := by
  simp

theorem propertyNamed_eq (widget : Widget) (node : Node) :
    propertyNamed widget node
      = (match propertySet widget with
          | some p =>
            if node.properties.any (fun kv => kv.1 == p) || node.inherited.contains p then some p
            else none
          | none => none) := by
  unfold propertyNamed propertySet
  cases widget.options.bind (fun o => o.property) with
  | none => rfl
  | some p =>
    by_cases hne : p = ""
    · simp [hne]
    · simp only [ne_eq, hne, not_false_eq_true, decide_True, Bool.true_and, if_true]

theorem propertyNamed_some (widget : Widget) (node : Node) (p : String)
    (hp : propertySet widget = some p) (hk : node.inKeys p) :
    propertyNamed widget node = some p := by
  rw [propertyNamed_eq, hp]
  rcases hk with h | h
  · simp [(any_key_iff node p).mpr h]
  · simp [h]

theorem propertyNamed_none (widget : Widget) (node : Node)
    (h : propertySet widget = none ∨ ∃ p, propertySet widget = some p ∧ ¬ node.inKeys p) :
    propertyNamed widget node = none := by
  rw [propertyNamed_eq]
  rcases h with h | ⟨p, hp, hk⟩
  · rw [h]
  · rw [hp]
    have h1 : node.properties.any (fun kv => kv.1 == p) = false := by
      rw [Bool.eq_false_iff]
      intro hc
      exact hk (Or.inl ((any_key_iff node p).mp hc))
    have h2 : node.inherited.contains p = false := by
      rw [Bool.eq_false_iff]
      intro hc
      exact hk (Or.inr ((inherited_contains_iff node p).mp hc))
    simp only [h1, h2, Bool.or_false, Bool.false_eq_true, if_false]

/-- C11 (counterexample): with `options.property = "toString"` and an empty
property store, `toString` is no key of the store, yet `in` finds it through
the prototype, `setProperty` is called and the store gets the key. -/
theorem property_sync_counterexample :
    ∃ σ,
      inner_value_change
          { value := JSVal.num 1, options := some { property := some "toString" } }
          (JSVal.num 3) {} (0, 0) []
        = Except.ok σ
      ∧ ¬ ({} : Node).hasProperty "toString"
      ∧ σ.node.properties = [("toString", JSVal.num 3)]
      ∧ σ.node ≠ {} := by
  refine ⟨_, rfl, ?_, rfl, by decide⟩
  rintro ⟨x, hx⟩
  simp at hx

/-- C11 (amended): `inner_value_change` (on a widget without callback, or whose
callback can be called) returns without error, and the node it leaves is
`node.setProperty(options.property, value)` exactly when `options.property` is
set and `in` finds it in `node.properties`, as a key of the store or as a key
the store inherits from its prototype; when `options.property` is unset or is
neither, the node is left as it was. -/
theorem property_sync_best_effort (widget : Widget) (v : JSVal) (node : Node) (pos : ℚ × ℚ)
    (calls : List HostCall)
    (hcb : widget.callback = Callback.absent ∨ widget.callback.callable = true) :
    ∃ σ, inner_value_change widget v node pos calls = Except.ok σ
      ∧ (∀ p, propertySet widget = some p → node.inKeys p →
          σ.node = node.setProperty p v)
      ∧ ((propertySet widget = none
            ∨ ∃ p, propertySet widget = some p ∧ ¬ node.inKeys p) →
          σ.node = node) := by
  obtain ⟨σ, hσ, hn⟩ := inner_value_change_node widget v node pos calls hcb
  refine ⟨σ, hσ, ?_, ?_⟩
  · intro p hp hkey
    rw [hn, propertyNamed_some { widget with value := v } node p hp hkey]
  · intro h
    rw [hn, propertyNamed_none { widget with value := v } node h]

/-- C11 (witness): a widget bound to the property `gain`, which the node has;
committing `3` writes `3` under `gain`. -/
theorem property_sync_best_effort_witness :
    ∃ σ,
      inner_value_change
          { value := JSVal.num 1, options := some { property := some "gain" } }
          (JSVal.num 3) { properties := [("gain", JSVal.num 1)] } (0, 0) []
        = Except.ok σ
      ∧ σ.node.properties = [("gain", JSVal.num 3)] := by
  obtain ⟨σ, hσ, h1, -⟩ :=
    property_sync_best_effort
      { value := JSVal.num 1, options := some { property := some "gain" } }
      (JSVal.num 3) { properties := [("gain", JSVal.num 1)] } (0, 0) [] (Or.inl rfl)
  refine ⟨σ, hσ, ?_⟩
  rw [h1 "gain" (by decide) (Or.inl ⟨JSVal.num 1, by simp⟩)]
  simp [Node.setProperty]

theorem mouse_timers (ev : Event) (pos : ℚ × ℚ) (node : Node) (w : Widget) (o : Options)
    (hopt : w.options = some o) :
    ∃ r, mouseAnnotated ev pos node w = Except.ok r
      ∧ r.timers = (if JSVal.looseNe w.value r.widget.value then [{ delay := 20, pos := pos }]
          else []) := by
  by_cases hm : ev.type = "pointermove"
  · obtain ⟨r, hr, -, -, ht⟩ := mouse_pointermove ev pos node w o hopt hm
    exact ⟨r, hr, ht⟩
  · by_cases hd : ev.type = "pointerdown"
    · obtain ⟨r, hr, -, -, ht⟩ := mouse_pointerdown ev pos node w o hopt hd
      exact ⟨r, hr, ht⟩
    · obtain ⟨r, hr, hw, ht⟩ := mouse_other ev pos node w hm hd
      exact ⟨r, hr, by rw [ht, hw]⟩

/-- C12: a pointer event handled by `mouseAnnotated` (on a widget whose options
object exists) schedules exactly one deferred commit, a 20 ms timer, when the
value after differs from the value before under `!=`, and none otherwise; for
a finite value before, that is exactly when the value has changed. -/
theorem commit_scheduling (ev : Event) (pos : ℚ × ℚ) (node : Node) (w : Widget) (o : Options)
    (hopt : w.options = some o) :
    ∃ r, mouseAnnotated ev pos node w = Except.ok r
      ∧ (JSVal.looseNe w.value r.widget.value = true →
          r.timers = [{ delay := 20, pos := pos }])
      ∧ (JSVal.looseNe w.value r.widget.value = false → r.timers = [])
      ∧ (∀ q, w.value = JSVal.num q →
          (r.widget.value ≠ w.value → r.timers = [{ delay := 20, pos := pos }])
            ∧ (r.widget.value = w.value → r.timers = [])) := by
  obtain ⟨r, hr, ht⟩ := mouse_timers ev pos node w o hopt
  refine ⟨r, hr, ?_, ?_, ?_⟩
  · intro h
    rw [ht, h]
    simp
  · intro h
    rw [ht, h]
    simp
  · intro q hq
    constructor
    · intro hne
      have : JSVal.looseNe w.value r.widget.value = true := by
        rw [hq] at hne ⊢
        cases hv : r.widget.value with
        | num x =>
          simp only [JSVal.looseNe, decide_eq_true_eq]
          intro hx
          exact hne (by rw [hv, hx])
        | nan => rfl
        | undefined => rfl
      rw [ht, this]
      simp
    · intro heq
      rw [ht, heq, hq, looseNe_self_num]
      simp

/-- C12 (witness): a nudge in the left zone from `5` changes the value and
sets one 20 ms timer. -/
theorem commit_scheduling_witness :
    ∃ r,
      mouseAnnotated { type := "pointerdown" } (10, 0) {}
          { value := JSVal.num 5, width := some 200, options := some {} }
        = Except.ok r
      ∧ r.widget.value = JSVal.num (49 / 10)
      ∧ r.timers = [{ delay := 20, pos := (10, 0) }] := by
  obtain ⟨r, hr, h1, -⟩ :=
    commit_scheduling { type := "pointerdown" } (10, 0) {}
      { value := JSVal.num 5, width := some 200, options := some {} } {} rfl
  obtain ⟨r1, hr1, hw, -, -⟩ :=
    mouse_pointerdown { type := "pointerdown" } (10, 0) {}
      { value := JSVal.num 5, width := some 200, options := some {} } {} rfl rfl
  have hrr : r1 = r := by
    rw [hr] at hr1
    exact (Except.ok.inj hr1).symm
  subst hrr
  have hb : ¬ inHitBox (10 : ℚ) 200 := by norm_num [inHitBox]
  have hv : r1.widget.value = JSVal.num (49 / 10) := by
    rw [hw]
    simp [widgetWidth, orElseNum, hb, zoneDelta, clampStatements, JSVal.add]
    norm_num
  refine ⟨r1, hr, hv, h1 ?_⟩
  rw [hv]
  simp [JSVal.looseNe]
  norm_num

theorem tapTest_iff (ev : Event) (x width : ℚ) :
    ((match ev.click_time with
        | some t => decide (t < 200)
        | none => false) && decide (zoneDelta x width = 0)) = true
      ↔ isTap ev x width := by
  unfold isTap
  cases ev.click_time <;> simp

theorem mouse_pointerup (ev : Event) (pos : ℚ × ℚ) (node : Node) (w : Widget)
    (ht : ev.type = "pointerup") :
    ∃ r, mouseAnnotated ev pos node w = Except.ok r
      ∧ r.widget = w
      ∧ (isTap ev pos.1 (widgetWidth w node) → r.prompts = [w.value])
      ∧ (¬ isTap ev pos.1 (widgetWidth w node) → r.prompts = []) := by
  have e1 : ("pointerup" == "pointermove") = false := by decide
  have e2 : ("pointerup" == "pointerdown") = false := by decide
  have e3 : ("pointerup" == "pointerup") = true := by decide
  unfold mouseAnnotated widgetWidth
  simp only [ht, e1, e2, e3, Bool.and_false, Bool.false_eq_true, if_false, if_true]
  by_cases h : isTap ev pos.1 (orElseNum w.width node.size0)
  · rw [if_pos ((tapTest_iff ev _ _).mpr h)]
    exact ⟨_, rfl, rfl, fun _ => rfl, fun hn => absurd h hn⟩
  · rw [if_neg (fun hc => h ((tapTest_iff ev _ _).mp hc))]
    exact ⟨_, rfl, rfl, fun hp => absurd hp h, fun _ => rfl⟩

/-- C13: on a pointerup event `mouseAnnotated` opens the prompt dialog, seeded
with the current value, if and only if `click_time < 200` and the zone delta
is `0`; the widget, its value included, is left unchanged. -/
theorem tap_to_edit (ev : Event) (pos : ℚ × ℚ) (node : Node) (w : Widget)
    (ht : ev.type = "pointerup") :
    ∃ r, mouseAnnotated ev pos node w = Except.ok r
      ∧ r.widget.value = w.value
      ∧ (isTap ev pos.1 (widgetWidth w node) → r.prompts = [w.value])
      ∧ (¬ isTap ev pos.1 (widgetWidth w node) → r.prompts = []) := by
  obtain ⟨r, hr, hw, h1, h2⟩ := mouse_pointerup ev pos node w ht
  exact ⟨r, hr, by rw [hw], h1, h2⟩

/-- C13 (witness): in the middle zone of a widget of width `200`, a pointerup
with `click_time = 150` opens the prompt seeded with the value `5`, and one
with `click_time = 250` opens none. -/
theorem tap_to_edit_witness :
    (∃ r,
        mouseAnnotated { type := "pointerup", click_time := some 150 } (100, 0) {}
            { value := JSVal.num 5, width := some 200, options := some {} }
          = Except.ok r
        ∧ r.prompts = [JSVal.num 5])
      ∧ ∃ r,
        mouseAnnotated { type := "pointerup", click_time := some 250 } (100, 0) {}
            { value := JSVal.num 5, width := some 200, options := some {} }
          = Except.ok r
        ∧ r.prompts = [] := by
  constructor
  · obtain ⟨r, hr, -, h1, -⟩ :=
      tap_to_edit { type := "pointerup", click_time := some 150 } (100, 0) {}
        { value := JSVal.num 5, width := some 200, options := some {} } rfl
    refine ⟨r, hr, h1 ⟨by norm_num, ?_⟩⟩
    norm_num [zoneDelta, widgetWidth, orElseNum]
  · obtain ⟨r, hr, -, -, h2⟩ :=
      tap_to_edit { type := "pointerup", click_time := some 250 } (100, 0) {}
        { value := JSVal.num 5, width := some 200, options := some {} } rfl
    refine ⟨r, hr, h2 ?_⟩
    rintro ⟨hlt, -⟩
    norm_num at hlt


/-! ## Option merge, button purity and commit idempotence (C14 to C16) -/

theorem nullishAt_append (l1 l2 : List (OptKey × Nullish)) (k : OptKey) :
    nullishAt (l1 ++ l2) k
      = (match nullishAt l1 k with
          | some n => some n
          | none => nullishAt l2 k) := by
  induction l1 with
  | nil => rfl
  | cons e rest ih =>
    obtain ⟨k1, n⟩ := e
    by_cases h : k1 = k
    · simp [nullishAt, h]
    · simp [nullishAt, h, ih]

theorem nullishAt_filter (l : List (OptKey × Nullish)) (f : OptKey → Bool) (k : OptKey) :
    nullishAt (l.filter (fun e => f e.1)) k = (if f k then nullishAt l k else none) := by
  induction l with
  | nil => simp [nullishAt]
  | cons e rest ih =>
    obtain ⟨k1, n⟩ := e
    by_cases hf : f k1 = true
    · by_cases h : k1 = k
      · subst h
        simp [List.filter, hf, nullishAt]
      · simp only [List.filter, hf, nullishAt, h, if_false, ih]
    · by_cases h : k1 = k
      · subst h
        simp only [List.filter, hf, ih]
        simp [hf]
      · simp only [List.filter, hf, ih, nullishAt, h, if_false]

theorem assign_value (target source : Options) (k : OptKey) :
    (target.assign source).value? k
      = (if source.has k then source.value? k else target.value? k) := by
  cases k <;> simp only [Options.value?, Options.assign] <;> split_ifs <;> rfl

theorem assign_nullish (target source : Options) (k : OptKey) :
    nullishAt (target.assign source).nullish k
      = (match nullishAt source.nullish k with
          | some n => some n
          | none => if source.has k then none else nullishAt target.nullish k) := by
  simp only [Options.assign, nullishAt_append]
  rw [nullishAt_filter target.nullish (fun k1 => !source.has k1) k]
  cases nullishAt source.nullish k <;> cases source.has k <;> simp

theorem assign_lookup (target source : Options) (k : OptKey) :
    (target.assign source).lookup k = precedence (source.lookup k) (target.lookup k) := by
  have hA := assign_value target source k
  have hB := assign_nullish target source k
  unfold Options.lookup
  rw [hA, hB]
  unfold Options.has Options.lookup
  cases source.value? k with
  | some v => simp [precedence]
  | none =>
    cases nullishAt source.nullish k with
    | some n => simp [precedence]
    | none => simp [precedence]

theorem empty_lookup (k : OptKey) : ({} : Options).lookup k = none := by
  cases k <;> rfl

/-- C14: the options of the widget returned by `makeAnnotated` are an object in
which every key `k` holds the stub's value when `k` is present in the stub's
own options (also with the value `undefined` or `null`), else the descriptor's
value (`inputData[1]`) when `k` is present there, and is absent otherwise. -/
theorem option_merge_precedence (stub : Widget) (inputData : InputData) (k : OptKey) :
    ∃ o, (makeAnnotated stub inputData).options = some o
      ∧ o.lookup k
        = precedence (stub.options.bind (fun s => s.lookup k))
            (inputData.options.bind (fun d => d.lookup k)) := by
  refine ⟨_, rfl, ?_⟩
  cases hs : stub.options with
  | none =>
    cases hd : inputData.options with
    | none => simp [Options.assignOpt, precedence, empty_lookup]
    | some d =>
      simp only [Options.assignOpt, assign_lookup, empty_lookup, Option.bind]
      cases d.lookup k <;> rfl
  | some s =>
    cases hd : inputData.options with
    | none => simp only [Options.assignOpt, assign_lookup, empty_lookup, Option.bind]
    | some d =>
      simp only [Options.assignOpt, assign_lookup, empty_lookup, Option.bind]
      cases s.lookup k <;> cases d.lookup k <;> rfl

/-- C14 (witness): a stub whose options hold `min` with the value `undefined`
keeps it over the descriptor's `min = 0`. -/
theorem option_merge_precedence_witness :
    ∃ o,
      (makeAnnotated
          { options := some { nullish := [(OptKey.min, Nullish.undefined)] } }
          { options := some { min := some 0, max := some 10 } }).options = some o
      ∧ o.lookup OptKey.min = some (OptVal.nullish Nullish.undefined) :=
  option_merge_precedence
    { options := some { nullish := [(OptKey.min, Nullish.undefined)] } }
    { options := some { min := some 0, max := some 10 } } OptKey.min

theorem makeAnnotated_undefined_key :
    ∃ o,
      (makeAnnotated
          { options := some { nullish := [(OptKey.min, Nullish.undefined)] } }
          { options := some { min := some 0, max := some 10 } }).options = some o
      ∧ o.min = none
      ∧ o.max = some 10 :=
  ⟨_, rfl, rfl, rfl⟩

/-- C15: two widgets that agree on `value`, `options.reset` and
`options.disable` get the same button state, whatever else differs. -/
theorem button_action_pure (w1 w2 : Widget)
    (hv : w1.value = w2.value) (hr : optReset w1 = optReset w2)
    (hd : optDisable w1 = optDisable w2) :
    button_action w1 = button_action w2 := by
  unfold button_action
  rw [hv, hr, hd]

/-- C15 (witness): two widgets with value `0`, reset `0` and disable `-1`
that differ in label, disabled flag, callback, width and the other options. -/
theorem button_action_pure_witness :
    button_action
        { value := JSVal.num 0, label := some "a", disabled := true, callback := Callback.host 1,
          options := some { reset := some 0, disable := some (-1), min := some 0 } }
      = button_action
        { value := JSVal.num 0, width := some 300,
          options := some { reset := some 0, disable := some (-1), step := some 2,
                            unit := some "dB" } } :=
  button_action_pure _ _ rfl rfl rfl

theorem setEntry_idem (p : String) (v : JSVal) (kv : String × JSVal) :
    (if (if kv.1 == p then (p, v) else kv).1 == p then (p, v)
      else (if kv.1 == p then (p, v) else kv))
      = (if kv.1 == p then (p, v) else kv) := by
  by_cases hk : kv.1 = p
  · simp [hk]
  · simp [hk]

theorem setEntry_other (p : String) (v : JSVal) (l : List (String × JSVal))
    (h : ¬ l.any (fun kv => kv.1 == p) = true) :
    l.map (fun kv => if kv.1 == p then (p, v) else kv) = l := by
  induction l with
  | nil => rfl
  | cons a rest ih =>
    simp only [List.any_cons, Bool.or_eq_true, not_or] at h
    simp only [List.map_cons, h.1, Bool.false_eq_true, if_false, ih h.2]

theorem setProperty_idem (node : Node) (p : String) (v : JSVal) :
    (node.setProperty p v).setProperty p v = node.setProperty p v := by
  unfold Node.setProperty
  by_cases h : node.properties.any (fun kv => kv.1 == p) = true
  · have h2 : (node.properties.map
        (fun kv => if kv.1 == p then (p, v) else kv)).any (fun kv => kv.1 == p) = true := by
      simp only [List.any_eq_true, List.mem_map] at h ⊢
      obtain ⟨kv, hm, hk⟩ := h
      exact ⟨(p, v), ⟨kv, hm, by simp [hk]⟩, by simp⟩
    simp only [h, if_true, h2, List.map_map]
    congr 1
    apply List.map_congr_left
    intro kv _
    exact setEntry_idem p v kv
  · have h1 : (node.properties ++ [(p, v)]).any (fun kv => kv.1 == p) = true := by
      simp
    simp only [h, Bool.false_eq_true, if_false, h1, if_true, List.map_append, List.map_cons,
      List.map_nil, beq_self_eq_true, setEntry_other p v node.properties h]

theorem setProperty_own (node : Node) (p : String) (v : JSVal) :
    (node.setProperty p v).properties.any (fun kv => kv.1 == p) = true := by
  unfold Node.setProperty
  by_cases h : node.properties.any (fun kv => kv.1 == p) = true
  · have h0 := h
    simp only [List.any_eq_true] at h0
    obtain ⟨kv, hm, hk⟩ := h0
    simp only [h, if_true, List.any_eq_true, List.mem_map]
    exact ⟨(p, v), ⟨kv, hm, by simp [hk]⟩, by simp⟩
  · simp [h]

theorem propertySync_idem (w1 : Widget) (node : Node) (v : JSVal) :
    (match propertyNamed w1
        (match propertyNamed w1 node with
          | some p => node.setProperty p v
          | none => node) with
      | some p =>
        (match propertyNamed w1 node with
          | some p => node.setProperty p v
          | none => node).setProperty p v
      | none =>
        (match propertyNamed w1 node with
          | some p => node.setProperty p v
          | none => node))
      = (match propertyNamed w1 node with
          | some p => node.setProperty p v
          | none => node) := by
  cases h : propertyNamed w1 node with
  | none => simp only [h]
  | some p =>
    simp only
    have hp : propertySet w1 = some p := by
      rw [propertyNamed_eq] at h
      cases hs : propertySet w1 with
      | none => simp [hs] at h
      | some q =>
        simp only [hs] at h
        split_ifs at h
        exact congrArg some (Option.some.inj h)
    have h2 : propertyNamed w1 (node.setProperty p v) = some p := by
      rw [propertyNamed_eq, hp]
      simp [setProperty_own node p v]
    simp only [h2, setProperty_idem]

/-- C16: for a widget with no callback, a second `inner_value_change` with the
same value returns the same widget, node and call log as the first, so the
node is not changed by the second call; and when `options.property` names no
property that `in` finds in the node's store, the node is the one the commit
started from. -/
theorem commit_idempotent (widget : Widget) (v : JSVal) (node : Node) (pos : ℚ × ℚ)
    (calls : List HostCall)
    (hcb : widget.callback = Callback.absent) :
    ∃ σ, inner_value_change widget v node pos calls = Except.ok σ
      ∧ inner_value_change σ.widget v σ.node pos σ.calls = Except.ok σ
      ∧ ((∀ p, widget.options.bind (fun o => o.property) = some p → ¬ node.inKeys p) →
          σ.node = node) := by
  refine ⟨{ widget := { widget with value := v, callback := Callback.absent }
            node := (match propertyNamed
                        { widget with value := v, callback := Callback.absent } node with
                      | some p => node.setProperty p v
                      | none => node)
            calls := calls }, ?_, ?_, ?_⟩
  · unfold inner_value_change
    simp only [hcb]
  · unfold inner_value_change
    simp only
    rw [propertySync_idem]
  · intro hprop
    have hnone : propertyNamed { widget with value := v, callback := Callback.absent } node
        = none := by
      apply propertyNamed_none
      cases hs : propertySet { widget with value := v, callback := Callback.absent } with
      | none => exact Or.inl rfl
      | some p =>
        refine Or.inr ⟨p, rfl, hprop p ?_⟩
        unfold propertySet at hs
        cases ho : widget.options.bind (fun o => o.property) with
        | none => simp [ho] at hs
        | some q =>
          simp only [ho] at hs
          split_ifs at hs
          exact congrArg some (Option.some.inj hs)
    simp only [hnone]

/-- C16 (witness): a widget without callback bound to a property the node
does not have, committed twice with `3`. -/
theorem commit_idempotent_witness :
    ∃ σ,
      inner_value_change { value := JSVal.num 1, options := some { property := some "gain" } }
          (JSVal.num 3) {} (0, 0) []
        = Except.ok σ
      ∧ inner_value_change σ.widget (JSVal.num 3) σ.node (0, 0) σ.calls = Except.ok σ
      ∧ σ.node = {} := by
  obtain ⟨σ, h1, h2, h3⟩ :=
    commit_idempotent { value := JSVal.num 1, options := some { property := some "gain" } }
      (JSVal.num 3) {} (0, 0) [] rfl
  refine ⟨σ, h1, h2, h3 ?_⟩
  intro p hp hk
  have hpg : p = "gain" := (Option.some.inj hp).symm
  subst hpg
  rcases hk with ⟨x, hx⟩ | hi
  · simp at hx
  · revert hi
    decide

/-! ## The renderer (C17, C18) -/

theorem drawButton_state (env : DrawEnv) (ctx : Ctx) (widget_width y H : ℚ) (self : Widget)
    (font : String) :
    (drawButton env ctx widget_width y H self font).state = ctx.state
      ∧ (drawButton env ctx widget_width y H self font).stack = ctx.stack := by
  unfold drawButton
  simp only
  split_ifs <;>
    simp [Ctx.save, Ctx.restore, Ctx.setFont, Ctx.setFillStyle, Ctx.fillText, Ctx.draw]

theorem drawChevrons_state (ctx : Ctx) (widget_width y H : ℚ) (self : Widget) :
    (drawChevrons ctx widget_width y H self).state = ctx.state
      ∧ (drawChevrons ctx widget_width y H self).stack = ctx.stack := by
  unfold drawChevrons
  simp only
  split_ifs <;> simp [Ctx.draw]

theorem drawValue_textAlign (env : DrawEnv) (ctx : Ctx) (widget_width y H : ℚ) (self : Widget)
    (o : Options) (font : String) (hprec : ∀ p, o.precision = some p → p ≤ 100) :
    ∃ c, drawValue env ctx widget_width y H self o font = Except.ok c
      ∧ c.state.textAlign = "right" := by
  have hd : ¬ (match o.precision with
      | some p => p
      | none => if nullishAt o.nullish OptKey.precision = some Nullish.null then 0 else 3)
        > 100 := by
    cases hp : o.precision with
    | none =>
      simp only
      split_ifs <;> norm_num
    | some p => simpa using hprec p hp
  unfold drawValue
  simp only [hd, if_false]
  cases hu : o.unit with
  | none =>
    simp only
    split_ifs <;>
      exact ⟨_, rfl, by
        simp [Ctx.save, Ctx.restore, Ctx.setFont, Ctx.setFillStyle, Ctx.fillText, Ctx.draw,
          Ctx.setTextAlign]⟩
  | some u =>
    simp only
    by_cases hne : u = ""
    · simp only [hne, ne_eq, not_true_eq_false, if_false]
      split_ifs <;>
        exact ⟨_, rfl, by
          simp [Ctx.save, Ctx.restore, Ctx.setFont, Ctx.setFillStyle, Ctx.fillText, Ctx.draw,
            Ctx.setTextAlign]⟩
    · simp only [hne, ne_eq, not_false_eq_true, if_true]
      split_ifs <;>
        exact ⟨_, rfl, by
          simp [Ctx.save, Ctx.restore, Ctx.setFont, Ctx.setFillStyle, Ctx.fillText, Ctx.draw,
            Ctx.setTextAlign]⟩


theorem drawAnnotated_textAlign (env : DrawEnv) (ctx : Ctx) (node : Node)
    (widget_width y H : ℚ) (self : Widget) (o : Options)
    (hopt : self.options = some o) (hprec : ∀ p, o.precision = some p → p ≤ 100) :
    ∃ c, drawAnnotated env ctx node widget_width y H self = Except.ok c
      ∧ c.state.textAlign = (if env.scale > 1 / 2 then "right" else "left") := by
  unfold drawAnnotated
  by_cases hs : env.scale > 1 / 2
  · simp only [hs, decide_True, if_true, hopt]
    exact drawValue_textAlign env _ widget_width y H self o _ hprec
  · simp only [hs, decide_False, Bool.false_eq_true, if_false]
    exact ⟨_, rfl, by simp [Ctx.setTextAlign, Ctx.setStrokeStyle, Ctx.setFillStyle, Ctx.draw]⟩

/-- C17 (counterexample): a call of `drawAnnotated` in detail mode (zoom scale
`1`) returns with `textAlign` equal to `right`, not `left`. -/
theorem draw_exit_alignment_counterexample :
    ∃ c,
      drawAnnotated
          { theme := { WIDGET_OUTLINE_COLOR := "#666", WIDGET_BGCOLOR := "#222",
                       WIDGET_TEXT_COLOR := "#DDD", WIDGET_SECONDARY_TEXT_COLOR := "#999" }
            scale := 1
            measureText := fun _ _ => 10
            toFixed := fun _ _ => "1.000"
            annotate := fun _ _ _ => "" }
          { state := { textAlign := "left", fillStyle := "#000", strokeStyle := "#000",
                       font := "10px Arial" } }
          {} 200 0 20
          { value := JSVal.num 1, name := "amount", options := some {} }
        = Except.ok c
      ∧ c.state.textAlign = "right"
      ∧ c.state.textAlign ≠ "left" := by
  obtain ⟨c, hc, ha⟩ :=
    drawAnnotated_textAlign
      { theme := { WIDGET_OUTLINE_COLOR := "#666", WIDGET_BGCOLOR := "#222",
                   WIDGET_TEXT_COLOR := "#DDD", WIDGET_SECONDARY_TEXT_COLOR := "#999" }
        scale := 1
        measureText := fun _ _ => 10
        toFixed := fun _ _ => "1.000"
        annotate := fun _ _ _ => "" }
      { state := { textAlign := "left", fillStyle := "#000", strokeStyle := "#000",
                   font := "10px Arial" } }
      {} 200 0 20
      { value := JSVal.num 1, name := "amount", options := some {} } {} rfl
      (by intro p hp; cases hp)
  have hr : c.state.textAlign = "right" := by
    rw [ha]
    norm_num
  refine ⟨c, hc, hr, ?_⟩
  rw [hr]
  decide

/-- C17 (amended): a call of `drawAnnotated` on a widget whose options object
exists (with a precision of at most 100 when one is set) returns, and on
return the surface's `textAlign` is `right` in detail mode (zoom scale above
`0.5`) and `left` below the threshold. -/
theorem draw_exit_alignment (env : DrawEnv) (ctx : Ctx) (node : Node)
    (widget_width y H : ℚ) (self : Widget) (o : Options)
    (hopt : self.options = some o) (hprec : ∀ p, o.precision = some p → p ≤ 100) :
    ∃ c, drawAnnotated env ctx node widget_width y H self = Except.ok c
      ∧ (env.scale > 1 / 2 → c.state.textAlign = "right")
      ∧ (¬ env.scale > 1 / 2 → c.state.textAlign = "left") := by
  obtain ⟨c, hc, ha⟩ := drawAnnotated_textAlign env ctx node widget_width y H self o hopt hprec
  refine ⟨c, hc, ?_, ?_⟩
  · intro h
    rw [ha, if_pos h]
  · intro h
    rw [ha, if_neg h]

/-- C17 (witness): a call at zoom scale `0.25` returns with `textAlign` equal
to `left`. -/
theorem draw_exit_alignment_witness :
    ∃ c,
      drawAnnotated
          { theme := { WIDGET_OUTLINE_COLOR := "#666", WIDGET_BGCOLOR := "#222",
                       WIDGET_TEXT_COLOR := "#DDD", WIDGET_SECONDARY_TEXT_COLOR := "#999" }
            scale := 1 / 4
            measureText := fun _ _ => 10
            toFixed := fun _ _ => "1.000"
            annotate := fun _ _ _ => "" }
          { state := { textAlign := "right", fillStyle := "#000", strokeStyle := "#000",
                       font := "10px Arial" } }
          {} 200 0 20
          { value := JSVal.num 1, name := "amount", options := some {} }
        = Except.ok c
      ∧ c.state.textAlign = "left" := by
  obtain ⟨c, hc, -, h2⟩ :=
    draw_exit_alignment
      { theme := { WIDGET_OUTLINE_COLOR := "#666", WIDGET_BGCOLOR := "#222",
                   WIDGET_TEXT_COLOR := "#DDD", WIDGET_SECONDARY_TEXT_COLOR := "#999" }
        scale := 1 / 4
        measureText := fun _ _ => 10
        toFixed := fun _ _ => "1.000"
        annotate := fun _ _ _ => "" }
      { state := { textAlign := "right", fillStyle := "#000", strokeStyle := "#000",
                   font := "10px Arial" } }
      {} 200 0 20
      { value := JSVal.num 1, name := "amount", options := some {} } {} rfl
      (by intro p hp; cases hp)
  exact ⟨c, hc, h2 (by norm_num)⟩


theorem lookupAnnotation_key (table : List (ℚ × String)) (q : ℚ)
    (h : ∃ s, (q, s) ∈ table) :
    ∃ s, (q, s) ∈ table ∧ lookupAnnotation table (JSVal.num q) = some s := by
  obtain ⟨s0, hs0⟩ := h
  cases hf : table.find? (fun kv => kv.1 == q) with
  | none =>
    rw [List.find?_eq_none] at hf
    have := hf (q, s0) hs0
    simp at this
  | some kv =>
    have hk := List.find?_some hf
    have hm := List.mem_of_find?_eq_some hf
    simp only [beq_iff_eq] at hk
    refine ⟨kv.2, ?_, ?_⟩
    · rw [← hk]
      exact hm
    · simp only [ lookupAnnotation, hf, Option.map_some']

theorem lookupAnnotation_no_key (table : List (ℚ × String)) (v : JSVal)
    (h : ∀ q s, v = JSVal.num q → (q, s) ∉ table) :
    lookupAnnotation table v = none := by
  cases v with
  | undefined => rfl
  | nan => rfl
  | num q =>
    cases hf : table.find? (fun kv => kv.1 == q) with
    | none => simp only [ lookupAnnotation, hf, Option.map_none']
    | some kv =>
      have hk := List.find?_some hf
      have hm := List.mem_of_find?_eq_some hf
      simp only [beq_iff_eq] at hk
      exact absurd (by rw [← hk]; exact hm) (h q kv.2 rfl)

/-- C18: in `drawAnnotated`, a widget with a per-instance annotation function
gets the text `annotation(value, free_width)`; without one, the text is the
entry `options.annotation[value]` when the value is a key of the table and the
empty string otherwise; with the table `0: off, 1: on`, the value `1` gives
`on` and the value `2` gives the empty string. -/
theorem annotation_selection (env : DrawEnv) (self : Widget) (o : Options) (free_width : ℚ) :
    (∀ f, self.annotation = some f →
        selectAnnotation env self o free_width = env.annotate f self.value free_width)
      ∧ (self.annotation = none →
          (∀ table q, o.annotation = some table → self.value = JSVal.num q →
              (∃ s, (q, s) ∈ table) →
              ∃ s, (q, s) ∈ table ∧ selectAnnotation env self o free_width = s)
            ∧ ((o.annotation = none
                  ∨ ∃ table, o.annotation = some table
                      ∧ ∀ q s, self.value = JSVal.num q → (q, s) ∉ table) →
                selectAnnotation env self o free_width = ""))
      ∧ selectAnnotation env { value := JSVal.num 1 }
          { annotation := some [(0, "off"), (1, "on")] } free_width = "on"
      ∧ selectAnnotation env { value := JSVal.num 2 }
          { annotation := some [(0, "off"), (1, "on")] } free_width = "" := by
  refine ⟨?_, ?_, ?_, ?_⟩
  · intro f hf
    simp [ selectAnnotation, hf]
  · intro hnone
    constructor
    · intro table q ht hv hkey
      obtain ⟨s, hs, hl⟩ := lookupAnnotation_key table q hkey
      exact ⟨s, hs, by simp [ selectAnnotation, hnone, ht, hv, hl]⟩
    · rintro (h | ⟨table, ht, hno⟩)
      · simp [ selectAnnotation, hnone, h]
      · simp [ selectAnnotation, hnone, ht, lookupAnnotation_no_key table self.value hno]
  · rfl
  · rfl

/-- C18 (witness): with a per-instance annotation function the table is not
consulted. -/
theorem annotation_selection_witness :
    selectAnnotation
        { theme := { WIDGET_OUTLINE_COLOR := "#666", WIDGET_BGCOLOR := "#222",
                     WIDGET_TEXT_COLOR := "#DDD", WIDGET_SECONDARY_TEXT_COLOR := "#999" }
          scale := 1
          measureText := fun _ _ => 10
          toFixed := fun _ _ => "1.000"
          annotate := fun _ _ _ => "custom" }
        { value := JSVal.num 1, annotation := some 0 }
        { annotation := some [(0, "off"), (1, "on")] } 50
      = "custom" :=
  (annotation_selection _ { value := JSVal.num 1, annotation := some 0 }
    { annotation := some [(0, "off"), (1, "on")] } 50).1 0 rfl


/-! ## Implicit properties (C19, C20) -/

theorem button_both_sentinels (w : Widget) (o : Options) (r d : ℚ)
    (hopt : w.options = some o) (hr : o.reset = some r) (hd : o.disable = some d)
    (hne : r ≠ d) :
    (w.value ≠ JSVal.num r → button_action w = "Reset")
      ∧ (w.value = JSVal.num r → button_action w = "Disable") := by
  have h1 : optReset w = some r := by simp [optReset, hopt, hr]
  have h2 : optDisable w = some d := by simp [optDisable, hopt, hd]
  unfold button_action
  constructor
  · intro hv
    simp [h1, h2, JSVal.ofOption, (looseNe_num_iff w.value r).mpr hv]
  · intro hv
    simp [h1, h2, JSVal.ofOption, hv, JSVal.looseNe, hne]

theorem button_click (ev : Event) (pos : ℚ × ℚ) (node : Node) (w : Widget) (o : Options)
    (r d : ℚ)
    (hopt : w.options = some o) (hr : o.reset = some r) (hd : o.disable = some d)
    (hne : r ≠ d) (ht : ev.type = "pointerdown")
    (hb : inHitBox pos.1 (widgetWidth w node)) :
    ∃ res, mouseAnnotated ev pos node w = Except.ok res
      ∧ res.widget.options = some o
      ∧ res.widget.width = w.width
      ∧ res.widget.value = (if w.value = JSVal.num r then JSVal.num d else JSVal.num r)
      ∧ res.widget.callback = w.callback
      ∧ res.timers = (if JSVal.looseNe w.value res.widget.value then
          [{ delay := 20, pos := pos }] else []) := by
  obtain ⟨res, hres, hw, -, htm⟩ := mouse_pointerdown ev pos node w o hopt ht
  obtain ⟨hA, hB⟩ := button_both_sentinels w o r d hopt hr hd hne
  refine ⟨res, hres, by rw [hw]; exact hopt, by rw [hw], ?_, by rw [hw], htm⟩
  rw [hw]
  by_cases hv : w.value = JSVal.num r
  · have hbtn := hB hv
    have hnr : button_action w ≠ "Reset" := by rw [hbtn]; decide
    simp [hb, hbtn, hv, hd, JSVal.ofOption]
  · have hbtn := hA hv
    simp [hb, hbtn, hv, hr, JSVal.ofOption]

theorem quantize_num (x st m : ℚ) (hst : st ≠ 0) :
    quantize (JSVal.num x) (some st) m
      = JSVal.num ((round ((x - m) / (st / 10)) : ℚ) * (st / 10) + m) := by
  have hs : st / 10 ≠ 0 := div_ne_zero hst (by norm_num)
  simp only [quantize, hs, if_false, mathRound, round_eq]

theorem quantize_grid_fixed (n : ℤ) (st m : ℚ) (hst : st ≠ 0) :
    quantize (JSVal.num ((n : ℚ) * (st / 10) + m)) (some st) m
      = JSVal.num ((n : ℚ) * (st / 10) + m) := by
  have hs : st / 10 ≠ 0 := div_ne_zero hst (by norm_num)
  rw [quantize_num _ _ _ hst]
  have : ((n : ℚ) * (st / 10) + m - m) / (st / 10) = (n : ℚ) := by
    field_simp
    ring
  rw [this, round_intCast]

theorem quantize_near (x st m : ℚ) (hst : st ≠ 0) :
    |(round ((x - m) / (st / 10)) : ℚ) * (st / 10) + m - x| ≤ |st| / 20 := by
  have hs : st / 10 ≠ 0 := div_ne_zero hst (by norm_num)
  have h1 : (round ((x - m) / (st / 10)) : ℚ) * (st / 10) + m - x
      = -(((x - m) / (st / 10) - round ((x - m) / (st / 10))) * (st / 10)) := by
    field_simp
    ring
  rw [h1, abs_neg, abs_mul]
  have h2 := abs_sub_round ((x - m) / (st / 10))
  have h3 : |st / 10| = |st| / 10 := by
    rw [abs_div]
    norm_num
  rw [h3]
  have h4 : (0 : ℚ) ≤ |st| / 10 := by positivity
  calc |(x - m) / (st / 10) - ↑(round ((x - m) / (st / 10)))| * (|st| / 10)
      ≤ 1 / 2 * (|st| / 10) := mul_le_mul_of_nonneg_right h2 h4
    _ = |st| / 20 := by ring

/-- C20: on a widget built by `makeAnnotated` with `options.mod` defined and a
step that is not `0`, the wrapped callback called with a finite value `x` that
is not `0` stores a value `q` such that `q - mod` is an integer multiple of
`step/10` and `|q - x| <= |step|/20`; calling the wrapped callback again with
`q` leaves the value equal to `q`. -/
theorem quantization_nearest_grid_point (stub : Widget) (inputData : InputData) (args : Args)
    (node : Node) (calls : List HostCall) (m st x : ℚ)
    (hmod : optMod (makeAnnotated stub inputData) = some m)
    (hstep : (makeAnnotated stub inputData).options.bind (fun o => o.step) = some st)
    (hst : st ≠ 0) (hv : args.v = JSVal.num x) (hx : x ≠ 0) :
    ∃ (q : ℚ) (n : ℤ) (σ1 : World),
      callWidgetCallback (makeAnnotated stub inputData) args node calls = Except.ok σ1
        ∧ σ1.widget.value = JSVal.num q
        ∧ q - m = (n : ℚ) * (st / 10)
        ∧ |q - x| ≤ |st| / 20
        ∧ ∃ σ2,
          callWidgetCallback σ1.widget { args with v := JSVal.num q } σ1.node σ1.calls
              = Except.ok σ2
            ∧ σ2.widget.value = JSVal.num q := by
  have hne : JSVal.looseEq args.v (JSVal.num 0) = false := by
    simp [hv, JSVal.looseEq, JSVal.looseNe, hx]
  refine ⟨(round ((x - m) / (st / 10)) : ℚ) * (st / 10) + m, round ((x - m) / (st / 10)),
    { widget := { makeAnnotated stub inputData with
                  value := quantize args.v (some st) m }
      node := node
      calls := calls }, ?_, ?_, ?_, ?_, ?_⟩
  · unfold callWidgetCallback
    rw [makeAnnotated_callback]
    simp only [invokeCallback, hne, Bool.false_eq_true, if_false, hmod, hstep]
  · simp only [hv, quantize_num _ _ _ hst]
  · ring
  · exact quantize_near x st m hst
  · have hmod1 : (makeAnnotated stub inputData).options.bind (fun o => o.mod) = some m := hmod
    unfold callWidgetCallback
    simp only [makeAnnotated_callback, invokeCallback, optMod]
    by_cases h0 : JSVal.looseEq
        (JSVal.num ((round ((x - m) / (st / 10)) : ℚ) * (st / 10) + m)) (JSVal.num 0) = true
    · simp only [h0, if_true]
      exact ⟨_, rfl, by simp only [hv, quantize_num _ _ _ hst]⟩
    · simp only [h0, Bool.false_eq_true, if_false, hmod1, hstep]
      exact ⟨_, rfl, quantize_grid_fixed _ st m hst⟩

/-- C20 (witness): with `mod = 2`, `step = 10` and `v = 7.6` the stored value is
within `0.5` of `7.6` on the grid `2 + n`, and is kept by a second call. -/
theorem quantization_nearest_grid_point_witness :
    ∃ (q : ℚ) (n : ℤ) (σ1 : World),
      callWidgetCallback
          (makeAnnotated
            { value := JSVal.num 1, callback := Callback.host 0,
              options := some { mod := some 2, step := some 10 } } {})
          { v := JSVal.num (38 / 5) } {} []
        = Except.ok σ1
        ∧ σ1.widget.value = JSVal.num q
        ∧ q - 2 = (n : ℚ) * (10 / 10)
        ∧ |q - 38 / 5| ≤ |(10 : ℚ)| / 20
        ∧ ∃ σ2,
          callWidgetCallback σ1.widget { v := JSVal.num q } σ1.node σ1.calls = Except.ok σ2
            ∧ σ2.widget.value = JSVal.num q :=
  quantization_nearest_grid_point
    { value := JSVal.num 1, callback := Callback.host 0,
      options := some { mod := some 2, step := some 10 } } {}
    { v := JSVal.num (38 / 5) } {} [] 2 10 (38 / 5) rfl rfl (by norm_num) rfl (by norm_num)


/-! ## Sequences of events with their deferred commits (C1, C19) -/

theorem setProperty_size0 (node : Node) (p : String) (v : JSVal) :
    (node.setProperty p v).size0 = node.size0 := rfl

theorem invokeCallback_no_mod (cb : Callback) (args : Args) (σ τ : World)
    (hmod : optMod σ.widget = none) (h : invokeCallback cb args σ = Except.ok τ) :
    τ.widget = σ.widget ∧ τ.node = σ.node := by
  induction cb with
  | absent => simp [invokeCallback] at h
  | host id =>
    simp only [invokeCallback, Except.ok.injEq] at h
    subst h
    exact ⟨rfl, rfl⟩
  | wrapped orig ih =>
    simp only [invokeCallback, hmod] at h
    split_ifs at h
    · simp only [Except.ok.injEq] at h
      subst h
      exact ⟨rfl, rfl⟩
    · exact ih h

theorem inner_value_change_no_mod (w : Widget) (v : JSVal) (node : Node) (pos : ℚ × ℚ)
    (calls : List HostCall) (τ : World) (hmod : optMod w = none)
    (h : inner_value_change w v node pos calls = Except.ok τ) :
    τ.widget = { w with value := v } ∧ τ.node.size0 = node.size0 := by
  have hsize : (match propertyNamed { w with value := v } node with
      | some p => node.setProperty p v
      | none => node).size0 = node.size0 := by
    cases propertyNamed { w with value := v } node <;> rfl
  unfold inner_value_change at h
  simp only at h
  split at h
  · simp only [Except.ok.injEq] at h
    subst h
    exact ⟨rfl, hsize⟩
  · obtain ⟨h1, h2⟩ := invokeCallback_no_mod _ _ _ τ (by exact hmod) h
    rw [h1, h2]
    exact ⟨rfl, hsize⟩

theorem fireTimer_no_mod (σ : World) (t : Timer) (hmod : optMod σ.widget = none) :
    (fireTimer σ t).widget.value = σ.widget.value
      ∧ (fireTimer σ t).widget.options = σ.widget.options
      ∧ (fireTimer σ t).widget.width = σ.widget.width
      ∧ (fireTimer σ t).node.size0 = σ.node.size0 := by
  unfold fireTimer
  cases h : inner_value_change σ.widget σ.widget.value σ.node t.pos σ.calls with
  | error e =>
    simp only
    refine ⟨trivial, trivial, trivial, ?_⟩
    cases propertyNamed σ.widget σ.node <;> rfl
  | ok τ =>
    obtain ⟨h1, h2⟩ := inner_value_change_no_mod _ _ _ _ _ τ hmod h
    simp only [h1, h2]
    exact ⟨trivial, trivial, trivial, trivial⟩

theorem steps_inRange (steps : List Step) (s : Session) (o : Options) (lo hi W : ℚ)
    (hopt : s.world.widget.options = some o) (hmin : o.min = some lo) (hmax : o.max = some hi)
    (hle : lo ≤ hi) (hin : inRange s.world.widget lo hi)
    (hW : widgetWidth s.world.widget s.world.node = W)
    (hev : ∀ ev pos, Step.pointer ev pos ∈ steps →
      ev.type = "pointermove" ∨ (ev.type = "pointerdown" ∧ ¬ inHitBox pos.1 W))
    (hmod : o.mod = none ∨ Step.timer ∉ steps) :
    ∃ s1, runSteps steps s = Except.ok s1 ∧ inRange s1.world.widget lo hi := by
  induction steps generalizing s with
  | nil => exact ⟨s, rfl, hin⟩
  | cons st rest ih =>
    have hev1 : ∀ ev pos, Step.pointer ev pos ∈ rest →
        ev.type = "pointermove" ∨ (ev.type = "pointerdown" ∧ ¬ inHitBox pos.1 W) :=
      fun ev pos h => hev ev pos (List.mem_cons_of_mem _ h)
    have hmod1 : o.mod = none ∨ Step.timer ∉ rest := by
      rcases hmod with h | h
      · exact Or.inl h
      · exact Or.inr (fun hc => h (List.mem_cons_of_mem _ hc))
    cases st with
    | pointer ev pos =>
      have he : dragOrNudge s.world.widget s.world.node (ev, pos) := by
        unfold dragOrNudge
        rw [hW]
        exact hev ev pos (List.mem_cons_self _ _)
      obtain ⟨r, hr, ho, hwid, hin1⟩ :=
        mouse_step_inRange s.world.widget o lo hi s.world.node (ev, pos) hopt hmin hmax hle
          hin he
      simp only at hr
      simp only [runSteps, hr]
      refine ih _ ?_ ?_ ?_ hev1 hmod1
      · exact ho
      · exact hin1
      · simpa [widgetWidth, hwid] using hW
    | timer =>
      cases hp : s.pending with
      | nil =>
        simp only [runSteps, hp]
        exact ih s hopt hin hW hev1 hmod1
      | cons t ts =>
        simp only [runSteps, hp]
        rcases hmod with h | h
        · have hm : optMod s.world.widget = none := by simp [optMod, hopt, h]
          obtain ⟨hv, ho, hwid, hsz⟩ := fireTimer_no_mod s.world t hm
          refine ih _ ?_ ?_ ?_ hev1 hmod1
          · simp only [ho, hopt]
          · unfold inRange at hin ⊢
            simp only [hv]
            exact hin
          · simp only [widgetWidth, hwid, hsz]
            exact hW
        · exact absurd (List.mem_cons_self _ _) h

theorem fireTimer_quantizes (σ : World) (t : Timer) (orig : Callback) (o : Options)
    (m x : ℚ)
    (hcb : σ.widget.callback = Callback.wrapped orig) (hopt : σ.widget.options = some o)
    (hm : o.mod = some m) (hv : σ.widget.value = JSVal.num x) (hx : x ≠ 0) :
    (fireTimer σ t).widget.value = quantize (JSVal.num x) o.step m
      ∧ (fireTimer σ t).widget.options = some o
      ∧ (fireTimer σ t).widget.width = σ.widget.width
      ∧ (fireTimer σ t).node.size0 = σ.node.size0 := by
  have hne : JSVal.looseEq (JSVal.num x) (JSVal.num 0) = false := by
    simp [JSVal.looseEq, JSVal.looseNe, hx]
  have hsize : (match propertyNamed { σ.widget with value := σ.widget.value } σ.node with
      | some p => σ.node.setProperty p σ.widget.value
      | none => σ.node).size0 = σ.node.size0 := by
    cases propertyNamed { σ.widget with value := σ.widget.value } σ.node <;> rfl
  have hivc : inner_value_change σ.widget σ.widget.value σ.node t.pos σ.calls
      = Except.ok
          { widget := { σ.widget with value := quantize (JSVal.num x) o.step m }
            node := (match propertyNamed { σ.widget with value := σ.widget.value } σ.node with
              | some p => σ.node.setProperty p σ.widget.value
              | none => σ.node)
            calls := σ.calls } := by
    unfold inner_value_change
    simp only
    split
    · rename_i hc
      rw [hcb] at hc
      cases hc
    · rename_i cb hc
      simp only [hcb, invokeCallback, hv, hne, Bool.false_eq_true, if_false, optMod, hopt,
        Option.bind, hm]
  unfold fireTimer
  rw [hivc]
  exact ⟨rfl, hopt, rfl, hsize⟩

/-- C1 (counterexample): a widget built by `makeAnnotated` with `min = 0`,
`max = 10`, `step = 20`, `mod = 1` and value `5`.  A drag of `+100` in the
middle zone clamps the value to `10`; the commit that drag scheduled then
quantizes it to `11`; a further pointermove in the left zone leaves `11`,
outside `[0, 10]`. -/
theorem drag_nudge_range_counterexample :
    ∃ s1,
      runSteps
          [Step.pointer { type := "pointermove", deltaX := some 100 } (100, 0),
           Step.timer,
           Step.pointer { type := "pointermove", deltaX := some 1 } (10, 0)]
          { world :=
              { widget :=
                  makeAnnotated
                    { value := JSVal.num 5, width := some 200, callback := Callback.host 0,
                      options := some { min := some 0, max := some 10, step := some 20,
                                        mod := some 1 } } {}
                node := {} } }
        = Except.ok s1
      ∧ s1.world.widget.value = JSVal.num 11
      ∧ ¬ inRange s1.world.widget 0 10 := by
  have hopt0 :
      (makeAnnotated
          { value := JSVal.num 5, width := some 200, callback := Callback.host 0,
            options := some { min := some 0, max := some 10, step := some 20,
                              mod := some 1 } } {}).options
        = some { min := some 0, max := some 10, step := some 20, mod := some 1 } := rfl
  obtain ⟨r1, hr1, hw1, -, ht1⟩ :=
    mouse_pointermove { type := "pointermove", deltaX := some 100 } (100, 0) {}
      (makeAnnotated
        { value := JSVal.num 5, width := some 200, callback := Callback.host 0,
          options := some { min := some 0, max := some 10, step := some 20,
                            mod := some 1 } } {})
      { min := some 0, max := some 10, step := some 20, mod := some 1 } hopt0 rfl
  have hz1 : zoneDelta (100 : ℚ) 200 = 0 := by norm_num [zoneDelta]
  have hv1 : r1.widget.value = JSVal.num 10 := by
    rw [hw1]
    have hwd : widgetWidth
        (makeAnnotated
          { value := JSVal.num 5, width := some 200, callback := Callback.host 0,
            options := some { min := some 0, max := some 10, step := some 20,
                              mod := some 1 } } {}) {} = 200 := by
      norm_num [widgetWidth, orElseNum, makeAnnotated]
    simp only [hwd, hz1, true_or, if_true, ne_eq]
    rw [if_pos (by norm_num)]
    show clampStatements _ ((JSVal.num 5).add _) = _
    rw [clamp_add_stepped]
    simp [steppedValue, clampTo, orElseNum]
    norm_num
  have hcb1 : r1.widget.callback = Callback.wrapped (Callback.host 0) := by rw [hw1]; rfl
  have hopt1 : r1.widget.options
      = some { min := some 0, max := some 10, step := some 20, mod := some 1 } := by
    rw [hw1]
    exact hopt0
  have hwid1 : r1.widget.width = some 200 := by rw [hw1]; rfl
  have htm1 : r1.timers = [{ delay := 20, pos := (100, 0) }] := by
    rw [ht1, hv1]
    simp [JSVal.looseNe, makeAnnotated]
  obtain ⟨hv2, hopt2, hwid2, -⟩ :=
    fireTimer_quantizes { widget := r1.widget, node := {}, calls := [] }
      { delay := 20, pos := (100, 0) } (Callback.host 0)
      { min := some 0, max := some 10, step := some 20, mod := some 1 } 1 10
      hcb1 hopt1 rfl hv1 (by norm_num)
  have hq : quantize (JSVal.num 10) (some 20) 1 = JSVal.num 11 := by
    have hr : mathRound (((10 : ℚ) - 1) / (20 / 10)) = 5 := by
      unfold mathRound
      rw [Int.floor_eq_iff]
      norm_num
    unfold quantize
    simp only
    rw [if_neg (by norm_num), hr]
    norm_num
  simp only at hv2 hwid2
  rw [hq] at hv2
  obtain ⟨r3, hr3, hw3, -, -⟩ :=
    mouse_pointermove { type := "pointermove", deltaX := some 1 } (10, 0)
      (fireTimer { widget := r1.widget, node := {}, calls := [] }
        { delay := 20, pos := (100, 0) }).node
      (fireTimer { widget := r1.widget, node := {}, calls := [] }
        { delay := 20, pos := (100, 0) }).widget
      { min := some 0, max := some 10, step := some 20, mod := some 1 } hopt2 rfl
  have hv3 : r3.widget.value = JSVal.num 11 := by
    rw [hw3]
    have hwd : widgetWidth
        (fireTimer { widget := r1.widget, node := {}, calls := [] }
          { delay := 20, pos := (100, 0) }).widget
        (fireTimer { widget := r1.widget, node := {}, calls := [] }
          { delay := 20, pos := (100, 0) }).node = 200 := by
      simp only [widgetWidth, hwid2, hwid1, orElseNum]
      norm_num
    have hz : zoneDelta (10 : ℚ) 200 ≠ 0 := by norm_num [zoneDelta]
    have hb : inBounds (10 : ℚ) 200 := by norm_num [inBounds]
    simp only [hwd, hz, hb, not_true_eq_false, or_self, if_false]
    exact hv2
  refine ⟨{ world :=
              { fireTimer { widget := r1.widget, node := {}, calls := [] }
                  { delay := 20, pos := (100, 0) } with widget := r3.widget }
            pending := [] ++ r3.timers }, ?_, hv3, ?_⟩
  · simp only [runSteps, hr1, htm1, List.nil_append, hr3]
  · unfold inRange
    simp only [hv3]
    norm_num

/-- C1 (amended): for a widget whose `options.min` and `options.max` are both
defined with `min <= max` and whose value starts within `[min, max]`, every
finite sequence of pointermove events and of pointerdown events landing
outside the button hit-box, with the deferred commits they schedule running
at any point in between, is handled without error and leaves the value within
`[min, max]`, provided `options.mod` is undefined or no deferred commit runs
within the sequence. -/
theorem drag_nudge_range_invariant (steps : List Step) (s : Session) (o : Options)
    (lo hi : ℚ)
    (hopt : s.world.widget.options = some o) (hmin : o.min = some lo) (hmax : o.max = some hi)
    (hle : lo ≤ hi) (hin : inRange s.world.widget lo hi)
    (hev : ∀ ev pos, Step.pointer ev pos ∈ steps →
      dragOrNudge s.world.widget s.world.node (ev, pos))
    (hmod : o.mod = none ∨ Step.timer ∉ steps) :
    ∃ s1, runSteps steps s = Except.ok s1 ∧ inRange s1.world.widget lo hi :=
  steps_inRange steps s o lo hi (widgetWidth s.world.widget s.world.node) hopt hmin hmax hle
    hin rfl hev hmod

/-- C1 (witness): a widget built by `makeAnnotated` with range `[0, 10]`, no
`mod` and value `5`: a drag of `+100` in the middle zone, the commit it
scheduled, and a nudge in the left zone. -/
theorem drag_nudge_range_invariant_witness :
    ∃ s1,
      runSteps
          [Step.pointer { type := "pointermove", deltaX := some 100 } (100, 0),
           Step.timer,
           Step.pointer { type := "pointerdown" } (10, 0)]
          { world :=
              { widget :=
                  makeAnnotated
                    { value := JSVal.num 5, width := some 200, callback := Callback.host 0,
                      options := some { min := some 0, max := some 10 } } {}
                node := {} } }
        = Except.ok s1
      ∧ inRange s1.world.widget 0 10 :=
  drag_nudge_range_invariant _ _ { min := some 0, max := some 10 } 0 10 rfl rfl rfl
    (by norm_num) (by decide)
    (by
      intro ev pos h
      simp only [List.mem_cons, Step.pointer.injEq, List.mem_singleton, List.not_mem_nil,
        or_false, reduceCtorEq, false_or] at h
      rcases h with ⟨rfl, rfl⟩ | ⟨rfl, rfl⟩
      · exact Or.inl rfl
      · exact Or.inr ⟨rfl, by norm_num [inHitBox, widgetWidth, orElseNum, makeAnnotated]⟩)
    (Or.inl rfl)

theorem runSteps_append (a b : List Step) (s : Session) :
    runSteps (a ++ b) s
      = (match runSteps a s with
          | Except.ok s1 => runSteps b s1
          | Except.error e => Except.error e) := by
  induction a generalizing s with
  | nil => rfl
  | cons st rest ih =>
    cases st with
    | pointer ev pos =>
      simp only [List.cons_append, runSteps]
      cases mouseAnnotated ev pos s.world.node s.world.widget with
      | error e => rfl
      | ok r => exact ih _
    | timer =>
      simp only [List.cons_append, runSteps]
      cases s.pending with
      | nil => exact ih _
      | cons t ts => exact ih _

theorem timers_keep (k : ℕ) (s : Session)
    (h : optMod s.world.widget = none ∨ k = 0) :
    ∃ s1, runSteps (List.replicate k Step.timer) s = Except.ok s1
      ∧ s1.world.widget.value = s.world.widget.value
      ∧ s1.world.widget.options = s.world.widget.options
      ∧ s1.world.widget.width = s.world.widget.width
      ∧ s1.world.node.size0 = s.world.node.size0 := by
  induction k generalizing s with
  | zero => exact ⟨s, rfl, rfl, rfl, rfl, rfl⟩
  | succ n ih =>
    have hm : optMod s.world.widget = none := by
      rcases h with h | h
      · exact h
      · exact absurd h (Nat.succ_ne_zero n)
    simp only [List.replicate_succ, runSteps]
    cases hp : s.pending with
    | nil => exact ih s (Or.inl hm)
    | cons t ts =>
      simp only
      obtain ⟨hv, ho, hw, hz⟩ := fireTimer_no_mod s.world t hm
      have hm1 : optMod (fireTimer s.world t).widget = none := by
        simp only [optMod, ho]
        exact hm
      obtain ⟨s1, h1, hv1, ho1, hw1, hz1⟩ :=
        ih { world := fireTimer s.world t, pending := ts } (Or.inl hm1)
      exact ⟨s1, h1, hv1.trans hv, ho1.trans ho, hw1.trans hw, hz1.trans hz⟩

theorem quantize_half : quantize (JSVal.num (1 / 2)) (some 10) 0 = JSVal.num 1 := by
  have hr : mathRound (((1 / 2 : ℚ) - 0) / (10 / 10)) = 1 := by
    unfold mathRound
    rw [Int.floor_eq_iff]
    norm_num
  unfold quantize
  simp only
  rw [if_neg (by norm_num), hr]
  norm_num

/-- C19 (counterexample): reset `1/2`, disable `-1`, step `10`, mod `0`, value
`5` on a widget built by `makeAnnotated`.  A click in the button hit-box sets
the value to the reset `1/2`; the commit that click scheduled quantizes it to
`1`; the next click finds the state `Reset` again and sets `1/2` once more, so
the two successive clicks do not alternate and the value never reaches the
disable `-1`. -/
theorem button_alternation_counterexample :
    ∃ s1 s2,
      runSteps [Step.pointer { type := "pointerdown" } (160, 0)]
          { world :=
              { widget :=
                  makeAnnotated
                    { value := JSVal.num 5, width := some 200, callback := Callback.host 0,
                      options := some { reset := some (1 / 2), disable := some (-1),
                                        step := some 10, mod := some 0 } } {}
                node := {} } }
        = Except.ok s1
      ∧ s1.world.widget.value = JSVal.num (1 / 2)
      ∧ runSteps [Step.timer, Step.pointer { type := "pointerdown" } (160, 0)] s1
        = Except.ok s2
      ∧ s2.world.widget.value = JSVal.num (1 / 2)
      ∧ s2.world.widget.value ≠ JSVal.num (-1) := by
  have hopt0 :
      (makeAnnotated
          { value := JSVal.num 5, width := some 200, callback := Callback.host 0,
            options := some { reset := some (1 / 2), disable := some (-1),
                              step := some 10, mod := some 0 } } {}).options
        = some { reset := some (1 / 2), disable := some (-1), step := some 10,
                 mod := some 0 } := rfl
  have hb : inHitBox (160 : ℚ) 200 := by norm_num [inHitBox]
  have hne : (1 / 2 : ℚ) ≠ -1 := by norm_num
  obtain ⟨r1, hr1, ho1, hw1, hv1, hc1, ht1⟩ :=
    button_click { type := "pointerdown" } (160, 0) {}
      (makeAnnotated
        { value := JSVal.num 5, width := some 200, callback := Callback.host 0,
          options := some { reset := some (1 / 2), disable := some (-1),
                            step := some 10, mod := some 0 } } {})
      { reset := some (1 / 2), disable := some (-1), step := some 10, mod := some 0 }
      (1 / 2) (-1) hopt0 rfl rfl hne rfl
      (by
        have : widgetWidth
            (makeAnnotated
              { value := JSVal.num 5, width := some 200, callback := Callback.host 0,
                options := some { reset := some (1 / 2), disable := some (-1),
                                  step := some 10, mod := some 0 } } {}) {} = 200 := by
          norm_num [widgetWidth, orElseNum, makeAnnotated]
        rw [this]
        exact hb)
  have hv1a : r1.widget.value = JSVal.num (1 / 2) := by
    rw [hv1, if_neg]
    simp [makeAnnotated]
    norm_num
  have hwid1 : r1.widget.width = some 200 := by rw [hw1]; rfl
  have htm1 : r1.timers = [{ delay := 20, pos := (160, 0) }] := by
    rw [ht1, hv1a]
    simp [JSVal.looseNe, makeAnnotated]
    norm_num
  obtain ⟨hv2, hopt2, hwid2, -⟩ :=
    fireTimer_quantizes { widget := r1.widget, node := {}, calls := [] }
      { delay := 20, pos := (160, 0) } (Callback.host 0)
      { reset := some (1 / 2), disable := some (-1), step := some 10, mod := some 0 } 0 (1 / 2)
      (by rw [hc1]; rfl) ho1 rfl hv1a (by norm_num)
  simp only at hv2 hwid2
  rw [quantize_half] at hv2
  obtain ⟨r3, hr3, -, -, hv3, -, -⟩ :=
    button_click { type := "pointerdown" } (160, 0)
      (fireTimer { widget := r1.widget, node := {}, calls := [] }
        { delay := 20, pos := (160, 0) }).node
      (fireTimer { widget := r1.widget, node := {}, calls := [] }
        { delay := 20, pos := (160, 0) }).widget
      { reset := some (1 / 2), disable := some (-1), step := some 10, mod := some 0 }
      (1 / 2) (-1) hopt2 rfl rfl hne rfl
      (by
        simp only [widgetWidth, hwid2, hwid1, orElseNum]
        norm_num [inHitBox])
  have hv3a : r3.widget.value = JSVal.num (1 / 2) := by
    rw [hv3, hv2, if_neg]
    simp
  refine ⟨{ world := { widget := r1.widget, node := {}, calls := [] }
            pending := [] ++ r1.timers },
          { world :=
              { fireTimer { widget := r1.widget, node := {}, calls := [] }
                  { delay := 20, pos := (160, 0) } with widget := r3.widget }
            pending := [] ++ r3.timers }, ?_, hv1a, ?_, hv3a, ?_⟩
  · simp only [runSteps, hr1]
  · simp only [runSteps, htm1, List.nil_append, hr3]
  · rw [hv3a]
    simp
    norm_num

/-- C19 (amended): on a widget with reset and disable both configured and
different, `button_action` returns `Reset` or `Disable` for every value, and a
pointerdown in the button hit-box always changes the value, to
`options.disable` when the value was `options.reset` and to `options.reset`
otherwise; a second such click, after any number of the pending commits have
run, changes it again in the same way, so that successive clicks alternate
between the two sentinels, provided `options.mod` is undefined or no commit
runs between the clicks. -/
theorem button_always_actionable (ev1 ev2 : Event) (pos1 pos2 : ℚ × ℚ) (s : Session)
    (o : Options) (r d : ℚ)
    (hopt : s.world.widget.options = some o) (hr : o.reset = some r) (hd : o.disable = some d)
    (hne : r ≠ d) (ht1 : ev1.type = "pointerdown") (ht2 : ev2.type = "pointerdown")
    (hb1 : inHitBox pos1.1 (widgetWidth s.world.widget s.world.node))
    (hb2 : inHitBox pos2.1 (widgetWidth s.world.widget s.world.node)) :
    (button_action s.world.widget = "Reset" ∨ button_action s.world.widget = "Disable")
      ∧ ∃ s1, runSteps [Step.pointer ev1 pos1] s = Except.ok s1
        ∧ s1.world.widget.value ≠ s.world.widget.value
        ∧ s1.world.widget.value
          = (if s.world.widget.value = JSVal.num r then JSVal.num d else JSVal.num r)
        ∧ ∀ k, (o.mod = none ∨ k = 0) →
          ∃ s2,
            runSteps (List.replicate k Step.timer ++ [Step.pointer ev2 pos2]) s1 = Except.ok s2
              ∧ s2.world.widget.value ≠ s1.world.widget.value
              ∧ s2.world.widget.value
                = (if s1.world.widget.value = JSVal.num r then JSVal.num d else JSVal.num r)
              ∧ ((s.world.widget.value = JSVal.num r ∨ s.world.widget.value = JSVal.num d) →
                  s2.world.widget.value = s.world.widget.value) := by
  have hnum : JSVal.num r ≠ JSVal.num d := fun h => hne (JSVal.num.inj h)
  have hflip : ∀ v : JSVal, (if v = JSVal.num r then JSVal.num d else JSVal.num r) ≠ v := by
    intro v
    by_cases hv : v = JSVal.num r
    · rw [if_pos hv, hv]
      exact hnum.symm
    · rw [if_neg hv]
      exact fun h => hv h.symm
  constructor
  · obtain ⟨hA, hB⟩ := button_both_sentinels s.world.widget o r d hopt hr hd hne
    by_cases hv : s.world.widget.value = JSVal.num r
    · exact Or.inr (hB hv)
    · exact Or.inl (hA hv)
  · obtain ⟨r1, h1, ho1, hw1, hv1, -, -⟩ :=
      button_click ev1 pos1 s.world.node s.world.widget o r d hopt hr hd hne ht1 hb1
    refine ⟨{ world := { s.world with widget := r1.widget }
              pending := s.pending ++ r1.timers }, ?_, ?_, hv1, ?_⟩
    · simp only [runSteps, h1]
    · simp only [hv1]
      exact hflip _
    · intro k hk
      have hk1 : optMod r1.widget = none ∨ k = 0 := by
        rcases hk with h | h
        · exact Or.inl (by simp [optMod, ho1, h])
        · exact Or.inr h
      obtain ⟨sk, hsk, hvk, hok, hwk, hzk⟩ :=
        timers_keep k
          { world := { s.world with widget := r1.widget }, pending := s.pending ++ r1.timers }
          hk1
      simp only at hvk hok hwk hzk
      have hb2a : inHitBox pos2.1 (widgetWidth sk.world.widget sk.world.node) := by
        simpa [widgetWidth, hwk, hzk, hw1] using hb2
      obtain ⟨r2, h2, -, -, hv2, -, -⟩ :=
        button_click ev2 pos2 sk.world.node sk.world.widget o r d (hok.trans ho1) hr hd hne
          ht2 hb2a
      refine ⟨{ world := { sk.world with widget := r2.widget }
                pending := sk.pending ++ r2.timers }, ?_, ?_, ?_, ?_⟩
      · rw [runSteps_append, hsk]
        simp only [runSteps, h2]
      · simp only [hv2, hvk]
        exact hflip _
      · simp only [hv2, hvk]
      · rintro (hv | hv)
        · simp only [hv2, hvk, hv1, hv, if_true, if_neg hnum.symm]
        · simp only [hv2, hvk, hv1, hv, if_neg hnum.symm, if_true]

/-- C19 (witness): reset `0`, disable `-1`, no `mod`, value `5` on a widget of
width `200` built by `makeAnnotated`: a click at `x = 160` sets `0`, and after
the pending commit a second click sets `-1`. -/
theorem button_always_actionable_witness :
    ∃ s1,
      runSteps [Step.pointer { type := "pointerdown" } (160, 0)]
          { world :=
              { widget :=
                  makeAnnotated
                    { value := JSVal.num 5, width := some 200, callback := Callback.host 0,
                      options := some { reset := some 0, disable := some (-1) } } {}
                node := {} } }
        = Except.ok s1
      ∧ s1.world.widget.value = JSVal.num 0
      ∧ ∃ s2,
        runSteps [Step.timer, Step.pointer { type := "pointerdown" } (160, 0)] s1
          = Except.ok s2
        ∧ s2.world.widget.value = JSVal.num (-1) := by
  have hb : inHitBox (160 : ℚ)
      (widgetWidth
        (makeAnnotated
          { value := JSVal.num 5, width := some 200, callback := Callback.host 0,
            options := some { reset := some 0, disable := some (-1) } } {}) {}) := by
    norm_num [inHitBox, widgetWidth, orElseNum, makeAnnotated]
  obtain ⟨-, s1, h1, -, hv1, hrest⟩ :=
    button_always_actionable { type := "pointerdown" } { type := "pointerdown" } (160, 0)
      (160, 0)
      { world :=
          { widget :=
              makeAnnotated
                { value := JSVal.num 5, width := some 200, callback := Callback.host 0,
                  options := some { reset := some 0, disable := some (-1) } } {}
            node := {} } }
      { reset := some 0, disable := some (-1) } 0 (-1) rfl rfl rfl (by norm_num) rfl rfl hb hb
  obtain ⟨s2, h2, -, hv2, -⟩ := hrest 1 (Or.inl rfl)
  have e1 : s1.world.widget.value = JSVal.num 0 := by
    rw [hv1]
    simp [makeAnnotated]
  refine ⟨s1, h1, e1, s2, h2, ?_⟩
  rw [hv2, e1]
  simp

end JoviMidi
